import Mathlib

/-!
# Verification of the `sistema_agendamento` booking core

Shallow embedding of the repository's core modules:

* `src/core/models.py`      — entity records `Paciente`, `Medico`, `Consulta`;
* `src/core/cache.py`       — the LRU + TTL `CacheManager`;
* `src/core/agendamento.py` — the `AgendamentoService` operations;
* `src/storage/json_storage.py` — the JSON persistence layer.

Modelling conventions:

* Python `uuid`-generated identifiers are threaded in as explicit `newId`
  string parameters (they are opaque to the logic).
* Wall-clock timestamps (`time.time()`, `datetime.now().isoformat()`) are
  threaded in as explicit `now : Nat` parameters.
* The persisted JSON files are modelled as Lean lists of the records; the
  JSON encode/decode round trip of `json.dump`/`json.load` is the identity
  on these records, so `to_dict`/`from_dict` pairs are elided.
* The service's read paths (`buscar_paciente`, `listar_consultas`, …) go
  through the read-through cache in the source; the spec declares the cache
  advisory ("every code path that reads through it must also be correct when
  the cache is empty"), every mutating service call invalidates exactly the
  keys it touches, and all service claims here are about the persisted
  state, so the service model reads the storage state directly.
* Python's `threading.Lock` is modelled by atomicity of the guarded body:
  `agendar_consulta` holds `agendamento_lock` for its whole body, so every
  interleaving of two calls is equivalent to one of the two serial orders.
-/

namespace Sistema

/-! ## Entity models (`src/core/models.py`) -/

/-- `Paciente` from `models.py` (the `data_cadastro` timestamp carries no
logic and is omitted). -/
structure Paciente where
  id : String
  nome : String
  cpf : String
  telefone : String
  email : String
deriving DecidableEq

/-- `Medico` from `models.py`. -/
structure Medico where
  id : String
  nome : String
  crm : String
  especialidade : String
  horarios_disponiveis : List String
deriving DecidableEq

/-- `Consulta` from `models.py`; `data_criacao`/`data_atualizacao` are the
creation and last-update timestamps. -/
structure Consulta where
  id : String
  paciente_id : String
  medico_id : String
  data : String
  hora : String
  observacoes : String
  status : String
  data_criacao : Nat
  data_atualizacao : Nat
deriving DecidableEq

def Consulta.STATUS_AGENDADA : String := "agendada"

def Consulta.STATUS_CONFIRMADA : String := "confirmada"

def Consulta.STATUS_REALIZADA : String := "realizada"

def Consulta.STATUS_CANCELADA : String := "cancelada"

/-- `Consulta.atualizar_status`: accepts exactly the four status values,
updating the status and the last-update timestamp; any other string is
rejected and the record is untouched. Python mutates in place and returns a
`bool`; here the updated record is returned alongside it. -/
def Consulta.atualizar_status (c : Consulta) (novo_status : String) (now : Nat) :
    Bool × Consulta :=
  if novo_status = Consulta.STATUS_AGENDADA ∨ novo_status = Consulta.STATUS_CONFIRMADA ∨
      novo_status = Consulta.STATUS_REALIZADA ∨ novo_status = Consulta.STATUS_CANCELADA then
    (true, { c with status := novo_status, data_atualizacao := now })
  else
    (false, c)

/-! ## Persistence layer (`src/storage/json_storage.py`)

A `JSONStorage` directory is a map from collection name (`entity_type`) to
the contents of `<entity_type>.json`: `none` when the file does not exist,
`some l` when it holds the JSON array `l`. `salvar` performs the atomic
temp-file + rename write; on the success path it replaces the file contents
wholesale and returns `True`. `carregar` returns the parsed array, or `[]`
when the file is absent. -/

def FileStore (α : Type) : Type := String → Option (List α)

/-- `JSONStorage.salvar` (success path): atomically replace the collection
file with the serialized records and report success. -/
def salvar {α : Type} (fs : FileStore α) (entity_type : String) (data : List α) :
    Bool × FileStore α :=
  (true, fun c => if c = entity_type then some data else fs c)

/-- `JSONStorage.carregar`: parse the collection file; a missing file yields
the empty list. -/
def carregar {α : Type} (fs : FileStore α) (entity_type : String) : List α :=
  (fs entity_type).getD []

/-! ## Booking service (`src/core/agendamento.py`)

The service owns three collections, one JSON file each. Storage-level
`adicionar` / `atualizar` / `remover` are load → mutate → save on the full
collection list, so the service state is just the three lists. -/

structure ServiceState where
  pacientes : List Paciente
  medicos : List Medico
  consultas : List Consulta
deriving DecidableEq

def ServiceState.empty : ServiceState := ⟨[], [], []⟩

/-- `JSONStorage.atualizar` on a consultas collection: replace the first
record whose `id` matches, reporting whether one was found. -/
def updFirstConsulta (cid : String) (novo : Consulta) : List Consulta → Bool × List Consulta
  | [] => (false, [])
  | c :: rest =>
    if c.id = cid then (true, novo :: rest)
    else
      let r := updFirstConsulta cid novo rest
      (r.1, c :: r.2)

/-- `JSONStorage.atualizar` on a pacientes collection. -/
def updFirstPaciente (pid : String) (novo : Paciente) : List Paciente → Bool × List Paciente
  | [] => (false, [])
  | p :: rest =>
    if p.id = pid then (true, novo :: rest)
    else
      let r := updFirstPaciente pid novo rest
      (r.1, p :: r.2)

/-- `AgendamentoService.listar_pacientes` (through the advisory cache). -/
def listar_pacientes (s : ServiceState) : List Paciente := s.pacientes

/-- `AgendamentoService.buscar_paciente`: `JSONStorage.buscar_por_id` returns
the first record whose `id` matches. -/
def buscar_paciente (s : ServiceState) (paciente_id : String) : Option Paciente :=
  s.pacientes.find? (fun p => p.id == paciente_id)

/-- `AgendamentoService.buscar_medico`. -/
def buscar_medico (s : ServiceState) (medico_id : String) : Option Medico :=
  s.medicos.find? (fun m => m.id == medico_id)

/-- `AgendamentoService.buscar_consulta`. -/
def buscar_consulta (s : ServiceState) (consulta_id : String) : Option Consulta :=
  s.consultas.find? (fun c => c.id == consulta_id)

/-- `AgendamentoService.criar_paciente`: reject a duplicate CPF, otherwise
append the new patient record. -/
def criar_paciente (s : ServiceState) (newId nome cpf telefone email : String) :
    (Bool × String × Option Paciente) × ServiceState :=
  if s.pacientes.any (fun p => p.cpf == cpf) then
    ((false, "CPF já cadastrado", none), s)
  else
    let paciente : Paciente := ⟨newId, nome, cpf, telefone, email⟩
    ((true, "Paciente cadastrado com sucesso", some paciente),
      { s with pacientes := s.pacientes ++ [paciente] })

/-- `AgendamentoService.atualizar_paciente`: update all four mutable fields
of the first record with the given id (no CPF-uniqueness re-check). -/
def atualizar_paciente (s : ServiceState) (paciente_id nome cpf telefone email : String) :
    (Bool × String) × ServiceState :=
  match buscar_paciente s paciente_id with
  | none => ((false, "Paciente não encontrado"), s)
  | some paciente =>
    let novo : Paciente := { paciente with
      nome := nome,
      cpf := cpf,
      telefone := telefone,
      email := email }
    let r := updFirstPaciente paciente_id novo s.pacientes
    if r.1 then
      ((true, "Paciente atualizado com sucesso"), { s with pacientes := r.2 })
    else
      ((false, "Erro ao atualizar paciente"), s)

/-- `AgendamentoService.listar_consultas_paciente`. -/
def listar_consultas_paciente (s : ServiceState) (paciente_id : String) : List Consulta :=
  s.consultas.filter (fun c => c.paciente_id == paciente_id)

/-- `AgendamentoService.remover_paciente`: refuse when the patient still has
a consulta that is neither cancelled nor completed; otherwise
`JSONStorage.remover` drops every record with the id and succeeds iff the
collection shrank. -/
def remover_paciente (s : ServiceState) (paciente_id : String) :
    (Bool × String) × ServiceState :=
  let consultas_ativas := (listar_consultas_paciente s paciente_id).filter
    (fun c => !(c.status == Consulta.STATUS_CANCELADA) && !(c.status == Consulta.STATUS_REALIZADA))
  if !consultas_ativas.isEmpty then
    ((false, "Paciente possui consultas ativas"), s)
  else
    let dados_filtrados := s.pacientes.filter (fun p => !(p.id == paciente_id))
    if dados_filtrados.length < s.pacientes.length then
      ((true, "Paciente removido com sucesso"), { s with pacientes := dados_filtrados })
    else
      ((false, "Erro ao remover paciente"), s)

/-- `AgendamentoService.criar_medico`: reject a duplicate CRM, otherwise
append the new provider record. -/
def criar_medico (s : ServiceState) (newId nome crm especialidade : String)
    (horarios : List String) : (Bool × String × Option Medico) × ServiceState :=
  if s.medicos.any (fun m => m.crm == crm) then
    ((false, "CRM já cadastrado", none), s)
  else
    let medico : Medico := ⟨newId, nome, crm, especialidade, horarios⟩
    ((true, "Médico cadastrado com sucesso", some medico),
      { s with medicos := s.medicos ++ [medico] })

/-- `AgendamentoService.verificar_conflito`: scan all consultas, skipping the
optional excluded id and cancelled ones, for a matching
(medico, data, hora); the loop's early return is equivalent to `List.any`. -/
def verificar_conflito (s : ServiceState) (medico_id data hora : String)
    (consulta_id : Option String) : Bool × String :=
  if s.consultas.any (fun c =>
      !(consulta_id == some c.id) && !(c.status == Consulta.STATUS_CANCELADA) &&
      c.medico_id == medico_id && c.data == data && c.hora == hora) then
    (true, "Horário já ocupado para este médico")
  else
    (false, "Horário disponível")

/-- `AgendamentoService.agendar_consulta`: the body runs entirely inside
`agendamento_lock`; checks are patient-exists, medico-exists, slot in the
medico's `horarios_disponiveis`, then `verificar_conflito`; on success a
fresh consulta with status `agendada` is appended via `storage.adicionar`. -/
def agendar_consulta (s : ServiceState) (newId paciente_id medico_id data hora : String)
    (observacoes : String) (now : Nat) : (Bool × String × Option Consulta) × ServiceState :=
  match buscar_paciente s paciente_id with
  | none => ((false, "Paciente não encontrado", none), s)
  | some _ =>
    match buscar_medico s medico_id with
    | none => ((false, "Médico não encontrado", none), s)
    | some medico =>
      if hora ∈ medico.horarios_disponiveis then
        let conflito := verificar_conflito s medico_id data hora none
        if conflito.1 then
          ((false, conflito.2, none), s)
        else
          let consulta : Consulta :=
            ⟨newId, paciente_id, medico_id, data, hora, observacoes,
             Consulta.STATUS_AGENDADA, now, now⟩
          ((true, "Consulta agendada com sucesso", some consulta),
            { s with consultas := s.consultas ++ [consulta] })
      else
        ((false, "Horário não disponível para este médico", none), s)

/-- `AgendamentoService.atualizar_status_consulta`: look the consulta up,
run `Consulta.atualizar_status`, and persist via `storage.atualizar`; both
an invalid status and a failed storage update fall through to the same
`"Status inválido"` failure. -/
def atualizar_status_consulta (s : ServiceState) (consulta_id novo_status : String)
    (now : Nat) : (Bool × String) × ServiceState :=
  match buscar_consulta s consulta_id with
  | none => ((false, "Consulta não encontrada"), s)
  | some consulta =>
    let r := consulta.atualizar_status novo_status now
    if r.1 then
      let u := updFirstConsulta consulta_id r.2 s.consultas
      if u.1 then
        ((true, "Status atualizado para " ++ novo_status), { s with consultas := u.2 })
      else
        ((false, "Status inválido"), s)
    else
      ((false, "Status inválido"), s)

/-- `AgendamentoService.cancelar_consulta`. -/
def cancelar_consulta (s : ServiceState) (consulta_id : String) (now : Nat) :
    (Bool × String) × ServiceState :=
  atualizar_status_consulta s consulta_id Consulta.STATUS_CANCELADA now

/-! ## Operation alphabet and runs

All mutating Booking Service operations, for reachability statements. -/

inductive Op where
  | criarPaciente (newId nome cpf telefone email : String)
  | atualizarPaciente (paciente_id nome cpf telefone email : String)
  | removerPaciente (paciente_id : String)
  | criarMedico (newId nome crm especialidade : String) (horarios : List String)
  | agendarConsulta (newId paciente_id medico_id data hora observacoes : String) (now : Nat)
  | atualizarStatusConsulta (consulta_id novo_status : String) (now : Nat)
  | cancelarConsulta (consulta_id : String) (now : Nat)
deriving DecidableEq

/-- The state reached after one service operation (results discarded). -/
def applyOp (s : ServiceState) : Op → ServiceState
  | Op.criarPaciente newId nome cpf telefone email =>
      (criar_paciente s newId nome cpf telefone email).2
  | Op.atualizarPaciente pid nome cpf telefone email =>
      (atualizar_paciente s pid nome cpf telefone email).2
  | Op.removerPaciente pid => (remover_paciente s pid).2
  | Op.criarMedico newId nome crm especialidade horarios =>
      (criar_medico s newId nome crm especialidade horarios).2
  | Op.agendarConsulta newId pid mid data hora obs now =>
      (agendar_consulta s newId pid mid data hora obs now).2
  | Op.atualizarStatusConsulta cid novo now => (atualizar_status_consulta s cid novo now).2
  | Op.cancelarConsulta cid now => (cancelar_consulta s cid now).2

/-- Run a sequence of service operations from a state. -/
def runOps (s : ServiceState) : List Op → ServiceState
  | [] => s
  | op :: ops => runOps (applyOp s op) ops

/-! ## Cache layer (`src/core/cache.py`)

`CacheManager` holds an `OrderedDict` (modelled as an association list,
head = least recently used, last = most recently used) plus a plain dict of
insertion/refresh timestamps. All operations run under `self.lock`, so each
is one atomic step. `dict.pop(key)` is modelled by filtering the key out;
on the unique-key states the manager actually produces, this removes
exactly the one entry. -/

structure CacheState (α : Type) where
  max_size : Nat
  ttl_seconds : Nat
  cache : List (String × α)
  timestamps : List (String × Nat)
  hits : Nat
  misses : Nat
  evictions : Nat

/-- Dict lookup on an association list (first entry with the key). -/
def lookupA {β : Type} (l : List (String × β)) (k : String) : Option β :=
  (l.find? (fun p => p.1 == k)).map (fun p => p.2)

/-- Dict `pop(key, None)`: drop the key's entry. -/
def eraseA {β : Type} (l : List (String × β)) (k : String) : List (String × β) :=
  l.filter (fun p => !(p.1 == k))

/-- `CacheManager.__init__`. -/
def CacheState.init (α : Type) (max_size ttl_seconds : Nat) : CacheState α :=
  ⟨max_size, ttl_seconds, [], [], 0, 0, 0⟩

/-- `CacheManager._is_expired`: a key missing from `timestamps` counts as
expired; otherwise the entry's age must not exceed the TTL. -/
def CacheState.isExpired {α : Type} (s : CacheState α) (now : Nat) (key : String) : Bool :=
  match lookupA s.timestamps key with
  | none => true
  | some t => s.ttl_seconds < now - t

/-- `CacheManager._remove`: drop the key from both the cache and the
timestamp dict. -/
def CacheState.removeKey {α : Type} (s : CacheState α) (key : String) : CacheState α :=
  { s with cache := eraseA s.cache key, timestamps := eraseA s.timestamps key }

/-- `CacheManager.get`: absent key is a miss; an expired key is evicted in
place and is a miss; otherwise the entry moves to the most-recently-used end
(`move_to_end`) and is a hit. The timestamp is never refreshed. -/
def CacheState.get {α : Type} (s : CacheState α) (now : Nat) (key : String) :
    Option α × CacheState α :=
  match lookupA s.cache key with
  | none => (none, { s with misses := s.misses + 1 })
  | some v =>
    if s.isExpired now key then
      let s2 := s.removeKey key
      (none, { s2 with misses := s2.misses + 1 })
    else
      (some v, { s with cache := eraseA s.cache key ++ [(key, v)], hits := s.hits + 1 })

/-- `CacheManager._evict_oldest`: remove the first (least recently used)
entry of the ordered dict. -/
def CacheState.evictOldest {α : Type} (s : CacheState α) : CacheState α :=
  match s.cache with
  | [] => s
  | p :: _ =>
    let s2 := s.removeKey p.1
    { s2 with evictions := s2.evictions + 1 }

/-- `CacheManager.set`: an existing key is refreshed in place and promoted
to most-recently-used; a new key first evicts the LRU entry when the cache
is at capacity, then is appended at the most-recently-used end. -/
def CacheState.set {α : Type} (s : CacheState α) (now : Nat) (key : String) (value : α) :
    CacheState α :=
  if (lookupA s.cache key).isSome then
    { s with
      cache := eraseA s.cache key ++ [(key, value)],
      timestamps := eraseA s.timestamps key ++ [(key, now)] }
  else
    let s1 := if s.max_size ≤ s.cache.length then s.evictOldest else s
    { s1 with
      cache := s1.cache ++ [(key, value)],
      timestamps := eraseA s1.timestamps key ++ [(key, now)] }

/-- `CacheManager.delete`: present key (expired or not — no TTL check) is
removed and reported `True`; an absent key reports `False`. -/
def CacheState.delete {α : Type} (s : CacheState α) (key : String) :
    Bool × CacheState α :=
  if (lookupA s.cache key).isSome then (true, s.removeKey key) else (false, s)

/-- A `set`/`get` operation on the cache, with its wall-clock instant. -/
inductive CacheOp (α : Type) where
  | set (key : String) (value : α) (now : Nat)
  | get (key : String) (now : Nat)

/-- One cache operation together with its ghost bookkeeping: `touch` maps
each key to the index of the last operation that touched it (a `set` of the
key, or a `get` hit on it), which is the recency order the LRU policy is
about. -/
def stepCacheG {α : Type} (s : CacheState α) (touch : List (String × Nat)) (i : Nat) :
    CacheOp α → CacheState α × List (String × Nat)
  | CacheOp.set k v now => (s.set now k v, eraseA touch k ++ [(k, i)])
  | CacheOp.get k now =>
    let r := s.get now k
    (r.2, if r.1.isSome then eraseA touch k ++ [(k, i)] else touch)

/-- Run a sequence of cache operations, threading the ghost touch map. -/
def runCacheG {α : Type} (s : CacheState α) (touch : List (String × Nat)) (i : Nat) :
    List (CacheOp α) → CacheState α × List (String × Nat)
  | [] => (s, touch)
  | op :: ops =>
    let r := stepCacheG s touch i op
    runCacheG r.1 r.2 (i + 1) ops

/-- Apply a sequence of `get` calls, given as (key, instant) pairs. -/
def runGets {α : Type} (s : CacheState α) : List (String × Nat) → CacheState α
  | [] => s
  | g :: gs => runGets (s.get g.2 g.1).2 gs

/-! ## Predicates for the claimed properties -/

/-- Two consultas double-book each other: both are non-cancelled and claim
the same (medico, data, hora) slot. -/
def conflictsWith (a b : Consulta) : Bool :=
  !(a.status == Consulta.STATUS_CANCELADA) && !(b.status == Consulta.STATUS_CANCELADA) &&
  a.medico_id == b.medico_id && a.data == b.data && a.hora == b.hora

/-- The central invariant: no two consultas in the list double-book the same
(medico, data, hora) slot with non-cancelled status. -/
def noDoubleBooking : List Consulta → Bool
  | [] => true
  | c :: rest => rest.all (fun d => !(conflictsWith c d)) && noDoubleBooking rest

/-- The four status values accepted by `Consulta.atualizar_status`. -/
def isValidStatus (st : String) : Bool :=
  st == Consulta.STATUS_AGENDADA || st == Consulta.STATUS_CONFIRMADA ||
  st == Consulta.STATUS_REALIZADA || st == Consulta.STATUS_CANCELADA

/-- An operation that turns a currently-cancelled consulta back into a
non-cancelled one (the only way any service operation can re-occupy a slot
without a conflict check). -/
def revivesCancelled (s : ServiceState) : Op → Bool
  | Op.atualizarStatusConsulta cid novo _ =>
    match buscar_consulta s cid with
    | some c => c.status == Consulta.STATUS_CANCELADA &&
        isValidStatus novo && !(novo == Consulta.STATUS_CANCELADA)
    | none => false
  | _ => false

/-- A run in which no step revives a cancelled consulta. -/
def noReviveRun (s : ServiceState) : List Op → Bool
  | [] => true
  | op :: ops => !(revivesCancelled s op) && noReviveRun (applyOp s op) ops

/-- All strings in the list are pairwise distinct. -/
def pairwiseDistinct : List String → Bool
  | [] => true
  | x :: rest => rest.all (fun y => !(y == x)) && pairwiseDistinct rest

/-- An operation that can defeat CPF uniqueness: a `criar_paciente` whose
generated id collides with an existing patient id (the source trusts the
uuid generator for id freshness), or an `atualizar_paciente` that writes a
CPF already held by a different patient (the source performs no uniqueness
re-check on update). -/
def uniquenessHazard (s : ServiceState) : Op → Bool
  | Op.criarPaciente newId _ _ _ _ => s.pacientes.any (fun p => p.id == newId)
  | Op.atualizarPaciente pid _ cpf _ _ =>
      s.pacientes.any (fun p => !(p.id == pid) && p.cpf == cpf)
  | _ => false

/-- A run free of uniqueness hazards. -/
def hazardFreeRun (s : ServiceState) : List Op → Bool
  | [] => true
  | op :: ops => !(uniquenessHazard s op) && hazardFreeRun (applyOp s op) ops

/-- Ghost recency: the step index of the last touch of a key, defaulting to
0 for untracked keys. -/
def touchD (touch : List (String × Nat)) (k : String) : Nat :=
  (lookupA touch k).getD 0

/-- Concrete cache state for the delete-versus-TTL witness: one entry,
stored at instant 0 with a TTL of 1 second. -/
def c9ExState : CacheState Nat := ⟨10, 1, [("k", 7)], [("k", 0)], 0, 0, 0⟩

/-- Concrete service state with one stored consulta, for the invalid-status
witness. -/
def c10ExState : ServiceState :=
  ⟨[], [], [⟨"C1", "P1", "M1", "2025-11-25", "09:00", "", "agendada", 0, 0⟩]⟩

/-- Concrete cache state for the TTL-expiry witness: one entry stored at
instant 0, TTL of 1 second. -/
def c5ExState : CacheState Nat := ⟨10, 1, [("k", 42)], [("k", 0)], 0, 0, 0⟩

/-- Operation sequence that defeats the double-booking invariant as
claimed: book (M1, 2025-11-25, 09:00), cancel it, book the slot again, then
set the cancelled consulta back to `agendada` via
`atualizar_status_consulta` — which performs no conflict check. -/
def c1CounterOps : List Op :=
  [Op.criarPaciente "P1" "Ana" "111" "t" "e",
   Op.criarMedico "M1" "Dr" "crm1" "esp" ["09:00"],
   Op.agendarConsulta "C1" "P1" "M1" "2025-11-25" "09:00" "" 0,
   Op.cancelarConsulta "C1" 1,
   Op.agendarConsulta "C2" "P1" "M1" "2025-11-25" "09:00" "" 2,
   Op.atualizarStatusConsulta "C1" "agendada" 3]

/-- The spec §8 scenario: book, cancel, book the same slot again — a legal
run that never revives a cancelled consulta. -/
def c1WitnessOps : List Op :=
  [Op.criarPaciente "P1" "Ana" "111" "t" "e",
   Op.criarMedico "M1" "Dr" "crm1" "esp" ["09:00"],
   Op.agendarConsulta "C1" "P1" "M1" "2025-11-25" "09:00" "" 0,
   Op.cancelarConsulta "C1" 1,
   Op.agendarConsulta "C2" "P1" "M1" "2025-11-25" "09:00" "" 2]

/-- Operation sequence that defeats CPF uniqueness as claimed: create two
patients with distinct CPFs, then `atualizar_paciente` writes the first
patient's CPF onto the second — the update path has no uniqueness check. -/
def c7CounterOps : List Op :=
  [Op.criarPaciente "P1" "Ana" "111" "t" "e",
   Op.criarPaciente "P2" "Bia" "222" "t" "e",
   Op.atualizarPaciente "P2" "Bia" "111" "t" "e"]

/-- A hazard-free run touching both collections: two patients with fresh
ids and CPFs, a harmless update, and two medicos with distinct CRMs. -/
def c7WitnessOps : List Op :=
  [Op.criarPaciente "P1" "Ana" "111" "t" "e",
   Op.criarPaciente "P2" "Bia" "222" "t" "e",
   Op.atualizarPaciente "P2" "Bia" "333" "t2" "e2",
   Op.criarMedico "M1" "Dr" "crm1" "esp" ["09:00"],
   Op.criarMedico "M2" "Dra" "crm2" "esp" ["10:00"]]

/-- Cache ops for the C4 witness: fill a capacity-2 cache with "a" and "b",
then hit "a" so that "b" becomes the least-recently-used entry. -/
def c4WitnessOps : List (CacheOp Nat) :=
  [CacheOp.set "a" 1 0, CacheOp.set "b" 2 1, CacheOp.get "a" 2]

/-- Concrete service state for the concurrent-booking witness: two distinct
patients, one medico offering "09:00", no consultas yet. -/
def c2ExState : ServiceState :=
  ⟨[⟨"P1", "Ana", "111", "t", "e"⟩, ⟨"P2", "Bia", "222", "t", "e"⟩],
   [⟨"M1", "Dr", "crm1", "esp", ["09:00"]⟩], []⟩

/-- Concrete service state for the booking-order witness: one patient, one
medico offering only "09:00", and an `agendada` consulta occupying
(M1, 2025-11-25, 09:00). -/
def c3ExState : ServiceState :=
  ⟨[⟨"P1", "Ana", "111", "t", "e"⟩],
   [⟨"M1", "Dr", "crm1", "esp", ["09:00"]⟩],
   [⟨"C1", "P1", "M1", "2025-11-25", "09:00", "", "agendada", 0, 0⟩]⟩

/-- Concrete service state where patient `P1` still has an `agendada`
consulta. -/
def c8ExState : ServiceState :=
  ⟨[⟨"P1", "Ana", "111", "t", "e"⟩], [],
   [⟨"C1", "P1", "M1", "2025-11-25", "09:00", "", "agendada", 0, 0⟩]⟩

/-- Concrete service state where patient `P2`'s only consulta is
`cancelada`. -/
def c8ExState2 : ServiceState :=
  ⟨[⟨"P1", "Ana", "111", "t", "e"⟩, ⟨"P2", "Bia", "222", "t", "e"⟩], [],
   [⟨"C1", "P2", "M1", "2025-11-25", "09:00", "", "cancelada", 0, 1⟩]⟩

/-! ## Association-list lemmas -/

theorem lookupA_cons {β : Type} (p : String × β) (l : List (String × β)) (k : String) :
    lookupA (p :: l) k = if p.1 = k then some p.2 else lookupA l k := by
  by_cases h : p.1 = k <;> simp [lookupA, List.find?_cons, h]

theorem eraseA_cons {β : Type} (p : String × β) (l : List (String × β)) (k : String) :
    eraseA (p :: l) k = if p.1 = k then eraseA l k else p :: eraseA l k := by
  by_cases h : p.1 = k <;> simp [eraseA, List.filter_cons, h]

theorem lookupA_eraseA_self {β : Type} (l : List (String × β)) (k : String) :
    lookupA (eraseA l k) k = none := by
  induction l with
  | nil => rfl
  | cons p rest ih =>
    rw [eraseA_cons]
    by_cases h : p.1 = k
    · rw [if_pos h]; exact ih
    · rw [if_neg h, lookupA_cons, if_neg h]; exact ih

theorem lookupA_eraseA_ne {β : Type} (l : List (String × β)) (k k' : String)
    (h : k' ≠ k) : lookupA (eraseA l k) k' = lookupA l k' := by
  induction l with
  | nil => rfl
  | cons p rest ih =>
    rw [eraseA_cons, lookupA_cons]
    by_cases hp : p.1 = k
    · rw [if_pos hp, ih, if_neg (by rw [hp]; exact fun hh => h hh.symm)]
    · rw [if_neg hp, lookupA_cons, ih]

theorem lookupA_append {β : Type} (l1 l2 : List (String × β)) (k : String) :
    lookupA (l1 ++ l2) k =
      match lookupA l1 k with
      | some v => some v
      | none => lookupA l2 k := by
  induction l1 with
  | nil => rfl
  | cons p rest ih =>
    rw [List.cons_append, lookupA_cons, lookupA_cons]
    by_cases h : p.1 = k
    · rw [if_pos h, if_pos h]
    · rw [if_neg h, if_neg h, ih]

theorem lookupA_append_single_ne {β : Type} (l : List (String × β)) (k : String) (v : β)
    (k' : String) (h : k' ≠ k) : lookupA (l ++ [(k, v)]) k' = lookupA l k' := by
  rw [lookupA_append]
  have h2 : lookupA [(k, v)] k' = none := by
    rw [lookupA_cons, if_neg (fun hh => h hh.symm)]; rfl
  cases hl : lookupA l k' <;> simp [h2]

theorem lookupA_update {β : Type} (l : List (String × β)) (k : String) (v : β) (k' : String) :
    lookupA (eraseA l k ++ [(k, v)]) k' = if k' = k then some v else lookupA l k' := by
  by_cases h : k' = k
  · subst h
    rw [if_pos rfl, lookupA_append, lookupA_eraseA_self, lookupA_cons, if_pos rfl]
  · rw [if_neg h, lookupA_append_single_ne _ _ _ _ h, lookupA_eraseA_ne l k k' h]

theorem lookupA_eq_none_iff {β : Type} (l : List (String × β)) (k : String) :
    lookupA l k = none ↔ ∀ p ∈ l, p.1 ≠ k := by
  induction l with
  | nil => simp [lookupA]
  | cons p rest ih =>
    by_cases h : p.1 = k <;> simp [lookupA_cons, h, ih]

theorem eraseA_sublist {β : Type} (l : List (String × β)) (k : String) :
    (eraseA l k).Sublist l :=
  List.filter_sublist l

theorem mem_eraseA {β : Type} (l : List (String × β)) (k : String) (p : String × β) :
    p ∈ eraseA l k ↔ p ∈ l ∧ p.1 ≠ k := by
  simp [eraseA, List.mem_filter]

theorem eraseA_of_forall_ne {β : Type} (l : List (String × β)) (k : String)
    (h : ∀ q ∈ l, q.1 ≠ k) : eraseA l k = l := by
  induction l with
  | nil => rfl
  | cons p rest ih =>
    rw [eraseA_cons, if_neg (h p (by simp)), ih (fun q hq => h q (by simp [hq]))]

theorem eraseA_cons_self {β : Type} (p : String × β) (rest : List (String × β))
    (h : ∀ q ∈ rest, q.1 ≠ p.1) : eraseA (p :: rest) p.1 = rest := by
  rw [eraseA_cons, if_pos rfl, eraseA_of_forall_ne rest p.1 h]

/-! ## C6 — persistence round trip -/

/-- C6: for every collection name and record sequence `data` (including the
empty one), a successful `salvar` followed by `carregar` of the same
collection returns exactly `data`, order preserved. -/
theorem c6_salvar_carregar_roundtrip {α : Type} (fs : FileStore α) (entity_type : String)
    (data : List α) :
    (salvar fs entity_type data).1 = true ∧
    carregar (salvar fs entity_type data).2 entity_type = data :=
  ⟨rfl, by simp [salvar, carregar]⟩

/-! ## C10 — invalid status update is a rejected no-op -/

/-- C10: `atualizar_status_consulta` with a status outside the four legal
values returns a failure and leaves the whole service state — in particular
the persisted consultas collection — unchanged. -/
theorem c10_invalid_status_rejected (s : ServiceState) (consulta_id novo_status : String)
    (now : Nat)
    (h1 : novo_status ≠ Consulta.STATUS_AGENDADA)
    (h2 : novo_status ≠ Consulta.STATUS_CONFIRMADA)
    (h3 : novo_status ≠ Consulta.STATUS_REALIZADA)
    (h4 : novo_status ≠ Consulta.STATUS_CANCELADA) :
    (atualizar_status_consulta s consulta_id novo_status now).1.1 = false ∧
    (atualizar_status_consulta s consulta_id novo_status now).2 = s := by
  cases hb : buscar_consulta s consulta_id with
  | none => simp [atualizar_status_consulta, hb]
  | some c => simp [atualizar_status_consulta, hb, Consulta.atualizar_status, h1, h2, h3, h4]

/-- Witness for C10: rejecting the made-up status `"pendente"` on a state
holding one consulta leaves the state untouched. -/
theorem c10_invalid_status_rejected_witness :
    (atualizar_status_consulta c10ExState "C1" "pendente" 7).1.1 = false ∧
    (atualizar_status_consulta c10ExState "C1" "pendente" 7).2 = c10ExState :=
  c10_invalid_status_rejected c10ExState "C1" "pendente" 7 (by decide) (by decide)
    (by decide) (by decide)

/-! ## C9 — delete ignores TTL -/

/-- C9: `delete` removes a stored key and answers `True` without any TTL
check; an absent key answers `False` and changes nothing; and on a state
whose only entry is already older than the TTL, `delete` still answers
`True` while `get` on the same state answers absent. -/
theorem c9_delete_no_ttl_check :
    (∀ (α : Type) (s : CacheState α) (key : String),
        (lookupA s.cache key).isSome = true →
        (s.delete key).1 = true ∧
        lookupA ((s.delete key).2).cache key = none ∧
        lookupA ((s.delete key).2).timestamps key = none) ∧
    (∀ (α : Type) (s : CacheState α) (key : String),
        lookupA s.cache key = none → s.delete key = (false, s)) ∧
    ((c9ExState.delete "k").1 = true ∧ (c9ExState.get 5 "k").1 = none) := by
  refine ⟨?_, ?_, by decide, by decide⟩
  · intro α s key h
    simp [CacheState.delete, h, CacheState.removeKey, lookupA_eraseA_self]
  · intro α s key h
    simp [CacheState.delete, h]

/-- Witness for C9: deleting the stored (and already expired) key of
`c9ExState` answers `True` and erases it. -/
theorem c9_delete_no_ttl_check_witness :
    (c9ExState.delete "k").1 = true ∧
    lookupA ((c9ExState.delete "k").2).cache "k" = none ∧
    lookupA ((c9ExState.delete "k").2).timestamps "k" = none :=
  c9_delete_no_ttl_check.1 Nat c9ExState "k" (by decide)

/-! ## C5 — TTL expiry on `get` -/

/-- One `get` step preserves the TTL configuration and the "timestamp of
`key` is still its last-set value, unless the entry was expired away"
disjunction: `get` never refreshes a timestamp. -/
theorem get_step_preserves {α : Type} (s : CacheState α) (now' : Nat) (k' key : String)
    (t0 : Nat)
    (h : lookupA s.timestamps key = some t0 ∨
         (lookupA s.cache key = none ∧ lookupA s.timestamps key = none)) :
    ((s.get now' k').2).ttl_seconds = s.ttl_seconds ∧
    (lookupA ((s.get now' k').2).timestamps key = some t0 ∨
     (lookupA ((s.get now' k').2).cache key = none ∧
      lookupA ((s.get now' k').2).timestamps key = none)) := by
  cases hc : lookupA s.cache k' with
  | none =>
    simp only [CacheState.get, hc]
    exact ⟨by simp, h⟩
  | some v =>
    by_cases he : s.isExpired now' k' = true
    · simp only [CacheState.get, hc, he, if_true, CacheState.removeKey]
      refine ⟨by simp, ?_⟩
      by_cases hk : key = k'
      · subst hk
        exact Or.inr ⟨lookupA_eraseA_self _ _, lookupA_eraseA_self _ _⟩
      · rw [lookupA_eraseA_ne _ _ _ hk, lookupA_eraseA_ne _ _ _ hk]
        exact h
    · rw [Bool.not_eq_true] at he
      simp only [CacheState.get, hc, he, Bool.false_eq_true, if_false]
      refine ⟨by simp, ?_⟩
      cases h with
      | inl hl => exact Or.inl hl
      | inr hr =>
        by_cases hk : key = k'
        · subst hk
          rw [hc] at hr
          exact absurd hr.1 (by simp)
        · refine Or.inr ⟨?_, hr.2⟩
          rw [lookupA_update, if_neg hk]
          exact hr.1

/-- Any sequence of `get` calls preserves the TTL configuration and never
refreshes the timestamp of `key`: it is either still the last-set value, or
the entry has been expired away altogether. -/
theorem runGets_invariant {α : Type} (gs : List (String × Nat)) (s : CacheState α)
    (key : String) (t0 : Nat)
    (h : lookupA s.timestamps key = some t0 ∨
         (lookupA s.cache key = none ∧ lookupA s.timestamps key = none)) :
    (runGets s gs).ttl_seconds = s.ttl_seconds ∧
    (lookupA (runGets s gs).timestamps key = some t0 ∨
     (lookupA (runGets s gs).cache key = none ∧
      lookupA (runGets s gs).timestamps key = none)) := by
  induction gs generalizing s with
  | nil => exact ⟨rfl, h⟩
  | cons g gs ih =>
    obtain ⟨httl, hstep⟩ := get_step_preserves s g.2 g.1 key t0 h
    obtain ⟨httl2, hrun⟩ := ih ((s.get g.2 g.1).2) hstep
    exact ⟨by rw [runGets, httl2, httl], by rw [runGets]; exact hrun⟩

/-- C5: once the age of `key` (time since its last `set`) strictly exceeds
the TTL, `get` answers absent and evicts the entry, no matter how many
intervening `get` calls touched the key — `get` promotes but never
refreshes the timestamp. -/
theorem c5_expired_get_is_miss {α : Type} (s : CacheState α) (gs : List (String × Nat))
    (key : String) (t0 now : Nat)
    (hts : lookupA s.timestamps key = some t0)
    (hexp : s.ttl_seconds < now - t0) :
    ((runGets s gs).get now key).1 = none ∧
    lookupA (((runGets s gs).get now key).2).cache key = none ∧
    (lookupA (runGets s gs).timestamps key = some t0 ∨
     lookupA (runGets s gs).timestamps key = none) := by
  obtain ⟨httl, hinv⟩ := runGets_invariant gs s key t0 (Or.inl hts)
  cases hinv with
  | inl hl =>
    cases hc : lookupA (runGets s gs).cache key with
    | none =>
      refine ⟨?_, ?_, Or.inl hl⟩ <;> simp [CacheState.get, hc]
    | some v =>
      have he : (runGets s gs).isExpired now key = true := by
        rw [CacheState.isExpired, hl, httl]
        simpa using hexp
      refine ⟨?_, ?_, Or.inl hl⟩ <;>
        simp [CacheState.get, hc, he, CacheState.removeKey, lookupA_eraseA_self]
  | inr hr =>
    refine ⟨?_, ?_, Or.inr hr.2⟩ <;> simp [CacheState.get, hr.1]

/-- Witness for C5: the entry set at instant 0 with TTL 1 is hit by a `get`
at instant 1, yet a `get` at instant 5 misses and evicts it. -/
theorem c5_expired_get_is_miss_witness :
    ((runGets c5ExState [("k", 1)]).get 5 "k").1 = none ∧
    lookupA (((runGets c5ExState [("k", 1)]).get 5 "k").2).cache "k" = none ∧
    (lookupA (runGets c5ExState [("k", 1)]).timestamps "k" = some 0 ∨
     lookupA (runGets c5ExState [("k", 1)]).timestamps "k" = none) :=
  c5_expired_get_is_miss c5ExState [("k", 1)] "k" 0 5 (by decide) (by decide)

/-! ## C8 — patient removal guarded by active consultas -/

/-- C8: `remover_paciente` rejects (leaving the state unchanged) whenever
the patient has a consulta that is neither cancelled nor completed; when the
patient exists and every one of their consultas is cancelled or completed,
the patient records with that id are removed and the call succeeds. -/
theorem c8_remover_paciente_guard (s : ServiceState) (pid : String) :
    ((∃ c ∈ s.consultas, c.paciente_id = pid ∧
        c.status ≠ Consulta.STATUS_CANCELADA ∧ c.status ≠ Consulta.STATUS_REALIZADA) →
      remover_paciente s pid = ((false, "Paciente possui consultas ativas"), s)) ∧
    ((∀ c ∈ s.consultas, c.paciente_id = pid →
        c.status = Consulta.STATUS_CANCELADA ∨ c.status = Consulta.STATUS_REALIZADA) →
     (∃ p ∈ s.pacientes, p.id = pid) →
      (remover_paciente s pid).1.1 = true ∧
      (remover_paciente s pid).1.2 = "Paciente removido com sucesso" ∧
      (remover_paciente s pid).2 =
        { s with pacientes := s.pacientes.filter (fun p => !(p.id == pid)) }) := by
  constructor
  · rintro ⟨c, hc, hpid, hnc, hnr⟩
    have hmem : c ∈ (listar_consultas_paciente s pid).filter
        (fun c => !(c.status == Consulta.STATUS_CANCELADA) &&
          !(c.status == Consulta.STATUS_REALIZADA)) := by
      rw [List.mem_filter, listar_consultas_paciente, List.mem_filter]
      exact ⟨⟨hc, by simp [hpid]⟩, by simp [hnc, hnr]⟩
    have hne : ((listar_consultas_paciente s pid).filter
        (fun c => !(c.status == Consulta.STATUS_CANCELADA) &&
          !(c.status == Consulta.STATUS_REALIZADA))).isEmpty = false := by
      rcases hl : (listar_consultas_paciente s pid).filter
          (fun c => !(c.status == Consulta.STATUS_CANCELADA) &&
            !(c.status == Consulta.STATUS_REALIZADA)) with _ | ⟨a, l⟩
      · rw [hl] at hmem; cases hmem
      · rw [hl]; rfl
    rw [remover_paciente, hne]
    rfl
  · intro hall ⟨p, hp, hpidp⟩
    have hnil : (listar_consultas_paciente s pid).filter
        (fun c => !(c.status == Consulta.STATUS_CANCELADA) &&
          !(c.status == Consulta.STATUS_REALIZADA)) = [] := by
      rw [List.filter_eq_nil_iff]
      intro a ha
      rw [listar_consultas_paciente, List.mem_filter] at ha
      have := hall a ha.1 (by simpa using ha.2)
      rcases this with h | h <;> simp [h, Consulta.STATUS_CANCELADA, Consulta.STATUS_REALIZADA]
    have hlen : (s.pacientes.filter (fun p => !(p.id == pid))).length < s.pacientes.length := by
      rw [List.length_filter_lt_length_iff_exists]
      exact ⟨p, hp, by simp [hpidp]⟩
    rw [remover_paciente, hnil]
    simp only [List.isEmpty_nil, Bool.not_true, Bool.false_eq_true, if_false, if_pos hlen]
    exact ⟨by simp, by simp, by simp⟩

/-- Witness for C8: in a state with two patients — one whose consulta is
still `agendada` and one whose consulta is `cancelada` — removing the first
is rejected unchanged and removing the second succeeds. -/
theorem c8_remover_paciente_guard_witness :
    remover_paciente c8ExState "P1" = ((false, "Paciente possui consultas ativas"), c8ExState) ∧
    (remover_paciente c8ExState2 "P2").1.1 = true ∧
    (remover_paciente c8ExState2 "P2").1.2 = "Paciente removido com sucesso" ∧
    (remover_paciente c8ExState2 "P2").2 =
      { c8ExState2 with pacientes := c8ExState2.pacientes.filter (fun p => !(p.id == "P2")) } :=
  ⟨(c8_remover_paciente_guard c8ExState "P1").1
      ⟨⟨"C1", "P1", "M1", "2025-11-25", "09:00", "", "agendada", 0, 0⟩,
        by decide, by decide, by decide, by decide⟩,
   (c8_remover_paciente_guard c8ExState2 "P2").2 (by decide)
      ⟨⟨"P2", "Bia", "222", "t", "e"⟩, by decide, by decide⟩⟩

/-! ## C3 — `agendar_consulta` check order and success effect -/

/-- The success flag of `verificar_conflito` is exactly the conflict scan. -/
theorem verificar_conflito_fst (s : ServiceState) (mid data hora : String)
    (cid : Option String) :
    (verificar_conflito s mid data hora cid).1 =
      s.consultas.any (fun c =>
        !(cid == some c.id) && !(c.status == Consulta.STATUS_CANCELADA) &&
        c.medico_id == mid && c.data == data && c.hora == hora) := by
  rw [verificar_conflito]
  split
  · next h => exact h.symm
  · next h =>
    rw [Bool.not_eq_true] at h
    exact h.symm

/-- When the conflict flag is set, `verificar_conflito` is exactly the
conflict rejection pair. -/
theorem verificar_conflito_conflict_msg (s : ServiceState) (mid data hora : String)
    (cid : Option String) (h : (verificar_conflito s mid data hora cid).1 = true) :
    verificar_conflito s mid data hora cid = (true, "Horário já ocupado para este médico") := by
  rw [verificar_conflito] at h ⊢
  split at h
  · next hc => rw [if_pos hc]
  · exact absurd h (by simp)

/-- When the conflict flag is clear, `verificar_conflito` is exactly the
slot-free pair. -/
theorem verificar_conflito_free_msg (s : ServiceState) (mid data hora : String)
    (cid : Option String) (h : (verificar_conflito s mid data hora cid).1 = false) :
    verificar_conflito s mid data hora cid = (false, "Horário disponível") := by
  rw [verificar_conflito] at h ⊢
  split at h
  · exact absurd h (by simp)
  · next hc => rw [if_neg hc]

/-- Success case of `agendar_consulta`: all four checks pass, one consulta
with status `agendada` is appended, and it is returned. -/
theorem agendar_consulta_success (s : ServiceState) (m : Medico)
    (newId pid mid data hora obs : String) (now : Nat)
    (hp : (buscar_paciente s pid).isSome = true)
    (hm : buscar_medico s mid = some m)
    (hhora : hora ∈ m.horarios_disponiveis)
    (hconf : (verificar_conflito s mid data hora none).1 = false) :
    agendar_consulta s newId pid mid data hora obs now =
      ((true, "Consulta agendada com sucesso",
        some ⟨newId, pid, mid, data, hora, obs, Consulta.STATUS_AGENDADA, now, now⟩),
       { s with consultas := s.consultas ++
          [⟨newId, pid, mid, data, hora, obs, Consulta.STATUS_AGENDADA, now, now⟩] }) := by
  rcases Option.isSome_iff_exists.mp hp with ⟨p, hp2⟩
  have hvc := verificar_conflito_free_msg s mid data hora none hconf
  simp [agendar_consulta, hp2, hm, hhora, hvc]

/-- Conflict case of `agendar_consulta`: patient, medico and slot checks
pass but the slot is occupied, so the call rejects and changes nothing. -/
theorem agendar_consulta_conflict (s : ServiceState) (m : Medico)
    (newId pid mid data hora obs : String) (now : Nat)
    (hp : (buscar_paciente s pid).isSome = true)
    (hm : buscar_medico s mid = some m)
    (hhora : hora ∈ m.horarios_disponiveis)
    (hconf : (verificar_conflito s mid data hora none).1 = true) :
    agendar_consulta s newId pid mid data hora obs now =
      ((false, "Horário já ocupado para este médico", none), s) := by
  rcases Option.isSome_iff_exists.mp hp with ⟨p, hp2⟩
  have hvc := verificar_conflito_conflict_msg s mid data hora none hconf
  simp [agendar_consulta, hp2, hm, hhora, hvc]

/-- C3: `agendar_consulta` checks patient-exists, medico-exists,
slot-in-vocabulary and slot-free in that order, returning the rejection of
the first violated check; when all hold it appends exactly one consulta
with status `agendada`, carrying the given fields, and returns it. -/
theorem c3_agendar_consulta_spec (s : ServiceState)
    (newId pid mid data hora obs : String) (now : Nat) :
    (buscar_paciente s pid = none →
      agendar_consulta s newId pid mid data hora obs now =
        ((false, "Paciente não encontrado", none), s)) ∧
    ((buscar_paciente s pid).isSome = true → buscar_medico s mid = none →
      agendar_consulta s newId pid mid data hora obs now =
        ((false, "Médico não encontrado", none), s)) ∧
    (∀ m, (buscar_paciente s pid).isSome = true → buscar_medico s mid = some m →
      hora ∉ m.horarios_disponiveis →
      agendar_consulta s newId pid mid data hora obs now =
        ((false, "Horário não disponível para este médico", none), s)) ∧
    (∀ m, (buscar_paciente s pid).isSome = true → buscar_medico s mid = some m →
      hora ∈ m.horarios_disponiveis →
      (verificar_conflito s mid data hora none).1 = true →
      agendar_consulta s newId pid mid data hora obs now =
        ((false, "Horário já ocupado para este médico", none), s)) ∧
    (∀ m, (buscar_paciente s pid).isSome = true → buscar_medico s mid = some m →
      hora ∈ m.horarios_disponiveis →
      (verificar_conflito s mid data hora none).1 = false →
      agendar_consulta s newId pid mid data hora obs now =
        ((true, "Consulta agendada com sucesso",
          some ⟨newId, pid, mid, data, hora, obs, Consulta.STATUS_AGENDADA, now, now⟩),
         { s with consultas := s.consultas ++
            [⟨newId, pid, mid, data, hora, obs, Consulta.STATUS_AGENDADA, now, now⟩] })) := by
  refine ⟨?_, ?_, ?_, ?_, ?_⟩
  · intro hp
    simp [agendar_consulta, hp]
  · intro hp hm
    rcases Option.isSome_iff_exists.mp hp with ⟨p, hp2⟩
    simp [agendar_consulta, hp2, hm]
  · intro m hp hm hhora
    rcases Option.isSome_iff_exists.mp hp with ⟨p, hp2⟩
    simp [agendar_consulta, hp2, hm, hhora]
  · intro m hp hm hhora hconf
    exact agendar_consulta_conflict s m newId pid mid data hora obs now hp hm hhora hconf
  · intro m hp hm hhora hconf
    exact agendar_consulta_success s m newId pid mid data hora obs now hp hm hhora hconf

/-- Witness for C3: on `c3ExState`, each of the four rejections fires at a
concrete input, and booking the free date 2025-11-26 succeeds and appends
exactly that consulta. -/
theorem c3_agendar_consulta_spec_witness :
    (agendar_consulta c3ExState "C9" "NOPE" "M1" "2025-11-26" "09:00" "" 9 =
      ((false, "Paciente não encontrado", none), c3ExState)) ∧
    (agendar_consulta c3ExState "C9" "P1" "NOPE" "2025-11-26" "09:00" "" 9 =
      ((false, "Médico não encontrado", none), c3ExState)) ∧
    (agendar_consulta c3ExState "C9" "P1" "M1" "2025-11-26" "07:00" "" 9 =
      ((false, "Horário não disponível para este médico", none), c3ExState)) ∧
    (agendar_consulta c3ExState "C9" "P1" "M1" "2025-11-25" "09:00" "" 9 =
      ((false, "Horário já ocupado para este médico", none), c3ExState)) ∧
    (agendar_consulta c3ExState "C9" "P1" "M1" "2025-11-26" "09:00" "" 9 =
      ((true, "Consulta agendada com sucesso",
        some ⟨"C9", "P1", "M1", "2025-11-26", "09:00", "", Consulta.STATUS_AGENDADA, 9, 9⟩),
       { c3ExState with consultas := c3ExState.consultas ++
          [⟨"C9", "P1", "M1", "2025-11-26", "09:00", "", Consulta.STATUS_AGENDADA, 9, 9⟩] })) :=
  ⟨(c3_agendar_consulta_spec c3ExState "C9" "NOPE" "M1" "2025-11-26" "09:00" "" 9).1
      (by decide),
   (c3_agendar_consulta_spec c3ExState "C9" "P1" "NOPE" "2025-11-26" "09:00" "" 9).2.1
      (by decide) (by decide),
   (c3_agendar_consulta_spec c3ExState "C9" "P1" "M1" "2025-11-26" "07:00" "" 9).2.2.1
      ⟨"M1", "Dr", "crm1", "esp", ["09:00"]⟩ (by decide) (by decide) (by decide),
   (c3_agendar_consulta_spec c3ExState "C9" "P1" "M1" "2025-11-25" "09:00" "" 9).2.2.2.1
      ⟨"M1", "Dr", "crm1", "esp", ["09:00"]⟩ (by decide) (by decide) (by decide) (by decide),
   (c3_agendar_consulta_spec c3ExState "C9" "P1" "M1" "2025-11-26" "09:00" "" 9).2.2.2.2
      ⟨"M1", "Dr", "crm1", "esp", ["09:00"]⟩ (by decide) (by decide) (by decide) (by decide)⟩

/-! ## C2 — concurrent bookings of the same slot exclude each other

`agendar_consulta` holds `agendamento_lock` for its entire body, so an
interleaving of two calls is equivalent to running them in one of the two
lock-acquisition orders; the two orders are proved below. -/

/-- Running two bookings of the same (medico, data, hora) slot back to back,
from a state where both patients and the medico exist, the slot is offered
and free: the first succeeds, the second is rejected with the conflict
message. -/
theorem agendar_consulta_serial_pair (s : ServiceState) (m : Medico)
    (idA idB pA pB mid data hora obsA obsB : String) (tA tB : Nat)
    (hpA : (buscar_paciente s pA).isSome = true)
    (hpB : (buscar_paciente s pB).isSome = true)
    (hm : buscar_medico s mid = some m)
    (hhora : hora ∈ m.horarios_disponiveis)
    (hconf : (verificar_conflito s mid data hora none).1 = false) :
    (agendar_consulta s idA pA mid data hora obsA tA).1.1 = true ∧
    (agendar_consulta (agendar_consulta s idA pA mid data hora obsA tA).2
       idB pB mid data hora obsB tB).1 =
      (false, "Horário já ocupado para este médico", none) := by
  have h1 := agendar_consulta_success s m idA pA mid data hora obsA tA hpA hm hhora hconf
  rw [h1]
  refine ⟨rfl, ?_⟩
  set c1 : Consulta :=
    ⟨idA, pA, mid, data, hora, obsA, Consulta.STATUS_AGENDADA, tA, tA⟩ with hc1
  set s1 : ServiceState := { s with consultas := s.consultas ++ [c1] } with hs1
  have hpB1 : (buscar_paciente s1 pB).isSome = true := by
    simpa [buscar_paciente, hs1] using hpB
  have hm1 : buscar_medico s1 mid = some m := by
    simpa [buscar_medico, hs1] using hm
  have hconf1 : (verificar_conflito s1 mid data hora none).1 = true := by
    rw [verificar_conflito_fst]
    have : s1.consultas = s.consultas ++ [c1] := rfl
    rw [this, List.any_append]
    simp [hc1, Consulta.STATUS_AGENDADA, Consulta.STATUS_CANCELADA]
  have h2 := agendar_consulta_conflict s1 m idB pB mid data hora obsB tB hpB1 hm1 hhora hconf1
  rw [h2]

/-- C2: for two bookings of the same (medico, data, hora) slot by two
existing distinct patients on a free, offered slot, each of the two orders
in which the booking lock can be acquired makes exactly the first call
succeed and the second observe the conflict rejection — never two successes
or two failures. -/
theorem c2_concurrent_booking_exclusive (s : ServiceState) (m : Medico)
    (id1 id2 p1 p2 mid data hora obs1 obs2 : String) (t1 t2 : Nat)
    (hp1 : (buscar_paciente s p1).isSome = true)
    (hp2 : (buscar_paciente s p2).isSome = true)
    (_hpp : p1 ≠ p2)
    (hm : buscar_medico s mid = some m)
    (hhora : hora ∈ m.horarios_disponiveis)
    (hconf : (verificar_conflito s mid data hora none).1 = false) :
    ((agendar_consulta s id1 p1 mid data hora obs1 t1).1.1 = true ∧
     (agendar_consulta (agendar_consulta s id1 p1 mid data hora obs1 t1).2
        id2 p2 mid data hora obs2 t2).1 =
       (false, "Horário já ocupado para este médico", none)) ∧
    ((agendar_consulta s id2 p2 mid data hora obs2 t2).1.1 = true ∧
     (agendar_consulta (agendar_consulta s id2 p2 mid data hora obs2 t2).2
        id1 p1 mid data hora obs1 t1).1 =
       (false, "Horário já ocupado para este médico", none)) :=
  ⟨agendar_consulta_serial_pair s m id1 id2 p1 p2 mid data hora obs1 obs2 t1 t2
      hp1 hp2 hm hhora hconf,
   agendar_consulta_serial_pair s m id2 id1 p2 p1 mid data hora obs2 obs1 t2 t1
      hp2 hp1 hm hhora hconf⟩

/-- Witness for C2: on `c2ExState`, both lock orders give one success and
one conflict rejection. -/
theorem c2_concurrent_booking_exclusive_witness :
    ((agendar_consulta c2ExState "Ca" "P1" "M1" "2025-11-25" "09:00" "" 1).1.1 = true ∧
     (agendar_consulta (agendar_consulta c2ExState "Ca" "P1" "M1" "2025-11-25" "09:00" "" 1).2
        "Cb" "P2" "M1" "2025-11-25" "09:00" "" 2).1 =
       (false, "Horário já ocupado para este médico", none)) ∧
    ((agendar_consulta c2ExState "Cb" "P2" "M1" "2025-11-25" "09:00" "" 2).1.1 = true ∧
     (agendar_consulta (agendar_consulta c2ExState "Cb" "P2" "M1" "2025-11-25" "09:00" "" 2).2
        "Ca" "P1" "M1" "2025-11-25" "09:00" "" 1).1 =
       (false, "Horário já ocupado para este médico", none)) :=
  c2_concurrent_booking_exclusive c2ExState ⟨"M1", "Dr", "crm1", "esp", ["09:00"]⟩
    "Ca" "Cb" "P1" "P2" "M1" "2025-11-25" "09:00" "" "" 1 2
    (by decide) (by decide) (by decide) (by decide) (by decide) (by decide)

/-! ## C1 — the central no-double-booking invariant -/

theorem noDoubleBooking_iff_pairwise (l : List Consulta) :
    noDoubleBooking l = true ↔ l.Pairwise (fun a b => conflictsWith a b = false) := by
  induction l with
  | nil => simp [noDoubleBooking]
  | cons c rest ih =>
    simp [noDoubleBooking, List.pairwise_cons, ih, List.all_eq_true]

theorem mem_updFirstConsulta (cid : String) (c2 : Consulta) (l : List Consulta)
    (x : Consulta) (hx : x ∈ (updFirstConsulta cid c2 l).2) : x ∈ l ∨ x = c2 := by
  induction l with
  | nil => cases hx
  | cons a rest ih =>
    rw [updFirstConsulta] at hx
    by_cases ha : a.id = cid
    · rw [if_pos ha] at hx
      rcases List.mem_cons.mp hx with h | h
      · exact Or.inr h
      · exact Or.inl (List.mem_cons_of_mem a h)
    · rw [if_neg ha] at hx
      rcases List.mem_cons.mp hx with h | h
      · exact Or.inl (h ▸ List.mem_cons_self a rest)
      · rcases ih h with h2 | h2
        · exact Or.inl (List.mem_cons_of_mem a h2)
        · exact Or.inr h2

/-- Replacing the first consulta with id `cid` by a record that conflicts no
more than the original preserves the no-double-booking invariant. -/
theorem noDoubleBooking_updFirst (cid : String) (c c2 : Consulta) (l : List Consulta)
    (hfind : l.find? (fun x => x.id == cid) = some c)
    (hmono : ∀ x, conflictsWith x c2 = true → conflictsWith x c = true)
    (hmono2 : ∀ x, conflictsWith c2 x = true → conflictsWith c x = true)
    (hl : noDoubleBooking l = true) :
    noDoubleBooking (updFirstConsulta cid c2 l).2 = true := by
  rw [noDoubleBooking_iff_pairwise] at hl ⊢
  induction l with
  | nil => cases hfind
  | cons a rest ih =>
    rw [List.pairwise_cons] at hl
    rw [updFirstConsulta]
    by_cases ha : a.id = cid
    · rw [if_pos ha]
      have hca : c = a := by
        rw [List.find?_cons_of_pos _ (by simpa using ha)] at hfind
        exact (Option.some_injective _ hfind).symm
      rw [List.pairwise_cons]
      refine ⟨fun d hd => ?_, hl.2⟩
      cases hcd : conflictsWith c2 d
      · rfl
      · exact absurd (hca ▸ hmono2 d hcd) (by rw [hl.1 d hd]; simp)
    · rw [if_neg ha]
      have hfind2 : rest.find? (fun x => x.id == cid) = some c := by
        rw [List.find?_cons_of_neg _ (by simpa using ha)] at hfind
        exact hfind
      have hcmem : c ∈ rest := List.mem_of_find?_eq_some hfind2
      rw [List.pairwise_cons]
      refine ⟨fun d hd => ?_, ih hfind2 hl.2⟩
      rcases mem_updFirstConsulta cid c2 rest d hd with h | h
      · exact hl.1 d h
      · rw [h]
        cases hcd : conflictsWith a c2
        · rfl
        · exact absurd (hmono a hcd) (by rw [hl.1 c hcmem]; simp)

/-- Appending a consulta that conflicts with nothing already present
preserves the no-double-booking invariant. -/
theorem noDoubleBooking_append (l : List Consulta) (c : Consulta)
    (hl : noDoubleBooking l = true)
    (hc : ∀ d ∈ l, conflictsWith d c = false) :
    noDoubleBooking (l ++ [c]) = true := by
  rw [noDoubleBooking_iff_pairwise] at hl ⊢
  rw [List.pairwise_append]
  refine ⟨hl, List.pairwise_singleton _ _, fun a ha b hb => ?_⟩
  rw [List.mem_singleton.mp hb]
  exact hc a ha

theorem criar_paciente_consultas (s : ServiceState) (newId nome cpf telefone email : String) :
    ((criar_paciente s newId nome cpf telefone email).2).consultas = s.consultas := by
  rw [criar_paciente]
  split <;> rfl

theorem atualizar_paciente_consultas (s : ServiceState)
    (pid nome cpf telefone email : String) :
    ((atualizar_paciente s pid nome cpf telefone email).2).consultas = s.consultas := by
  rw [atualizar_paciente]
  cases buscar_paciente s pid
  · rfl
  · dsimp only
    split <;> rfl

theorem remover_paciente_consultas (s : ServiceState) (pid : String) :
    ((remover_paciente s pid).2).consultas = s.consultas := by
  rw [remover_paciente]
  dsimp only
  split
  · rfl
  · split <;> rfl

theorem criar_medico_consultas (s : ServiceState) (newId nome crm especialidade : String)
    (horarios : List String) :
    ((criar_medico s newId nome crm especialidade horarios).2).consultas = s.consultas := by
  rw [criar_medico]
  split <;> rfl

/-- A successful booking appends a consulta that conflicts with no stored
one, so the invariant survives `agendar_consulta`. -/
theorem agendar_consulta_preserves_ndb (s : ServiceState)
    (newId pid mid data hora obs : String) (now : Nat)
    (hinv : noDoubleBooking s.consultas = true) :
    noDoubleBooking ((agendar_consulta s newId pid mid data hora obs now).2).consultas
      = true := by
  cases hp : buscar_paciente s pid with
  | none => simpa [agendar_consulta, hp] using hinv
  | some p =>
    cases hm : buscar_medico s mid with
    | none => simpa [agendar_consulta, hp, hm] using hinv
    | some m =>
      by_cases hhora : hora ∈ m.horarios_disponiveis
      · by_cases hconf : (verificar_conflito s mid data hora none).1 = true
        · rw [agendar_consulta_conflict s m newId pid mid data hora obs now
            (by rw [hp]; rfl) hm hhora hconf]
          exact hinv
        · rw [Bool.not_eq_true] at hconf
          rw [agendar_consulta_success s m newId pid mid data hora obs now
            (by rw [hp]; rfl) hm hhora hconf]
          show noDoubleBooking (s.consultas ++
            [⟨newId, pid, mid, data, hora, obs, Consulta.STATUS_AGENDADA, now, now⟩]) = true
          refine noDoubleBooking_append _ _ hinv ?_
          intro d hd
          rw [verificar_conflito_fst] at hconf
          have hall := List.any_eq_false.mp hconf d hd
          cases hcd : conflictsWith d
              ⟨newId, pid, mid, data, hora, obs, Consulta.STATUS_AGENDADA, now, now⟩
          · rfl
          · exfalso
            apply hall
            simp only [conflictsWith, Bool.and_eq_true, Bool.not_eq_true',
              beq_eq_false_iff_ne, beq_iff_eq] at hcd
            simp [hcd.1.1.1.1, hcd.1.1.1.2, hcd.1.1.2, hcd.1.2, hcd.2]
      · simpa [agendar_consulta, hp, hm, hhora] using hinv

/-- A status update that does not revive a cancelled consulta preserves the
invariant: the replaced record conflicts no more than the original. -/
theorem atualizar_status_preserves_ndb (s : ServiceState) (cid novo : String) (now : Nat)
    (hinv : noDoubleBooking s.consultas = true)
    (hop : ∀ c, buscar_consulta s cid = some c → c.status = Consulta.STATUS_CANCELADA →
      isValidStatus novo = true → novo = Consulta.STATUS_CANCELADA) :
    noDoubleBooking ((atualizar_status_consulta s cid novo now).2).consultas = true := by
  cases hb : buscar_consulta s cid with
  | none => simpa [atualizar_status_consulta, hb] using hinv
  | some c =>
    rw [atualizar_status_consulta, hb]
    dsimp only
    rw [Consulta.atualizar_status]
    by_cases hval : novo = Consulta.STATUS_AGENDADA ∨ novo = Consulta.STATUS_CONFIRMADA ∨
        novo = Consulta.STATUS_REALIZADA ∨ novo = Consulta.STATUS_CANCELADA
    · have hvalid : isValidStatus novo = true := by
        rcases hval with h | h | h | h <;> simp [isValidStatus, h]
      rw [if_pos hval]
      dsimp only
      split
      · split
        · show noDoubleBooking
            (updFirstConsulta cid { c with status := novo, data_atualizacao := now }
              s.consultas).2 = true
          refine noDoubleBooking_updFirst cid c _ s.consultas hb ?_ ?_ hinv
          · intro x hx
            by_cases hcanc : c.status = Consulta.STATUS_CANCELADA
            · have hnovo := hop c hb hcanc hvalid
              rw [conflictsWith] at hx
              rw [show ({ c with status := novo, data_atualizacao := now } :
                  Consulta).status = novo from rfl, hnovo] at hx
              simp at hx
            · rw [conflictsWith] at hx ⊢
              simp only [Bool.and_eq_true, Bool.not_eq_true', beq_eq_false_iff_ne] at hx ⊢
              exact ⟨⟨⟨⟨hx.1.1.1.1, hcanc⟩, hx.1.1.2⟩, hx.1.2⟩, hx.2⟩
          · intro x hx
            by_cases hcanc : c.status = Consulta.STATUS_CANCELADA
            · have hnovo := hop c hb hcanc hvalid
              rw [conflictsWith] at hx
              rw [show ({ c with status := novo, data_atualizacao := now } :
                  Consulta).status = novo from rfl, hnovo] at hx
              simp at hx
            · rw [conflictsWith] at hx ⊢
              simp only [Bool.and_eq_true, Bool.not_eq_true', beq_eq_false_iff_ne] at hx ⊢
              exact ⟨⟨⟨⟨hcanc, hx.1.1.1.2⟩, hx.1.1.2⟩, hx.1.2⟩, hx.2⟩
        · exact hinv
      · exact hinv
    · rw [if_neg hval]
      exact hinv

/-- Every service operation allowed by the no-revive guard preserves the
no-double-booking invariant. -/
theorem applyOp_preserves_ndb (s : ServiceState) (op : Op)
    (hinv : noDoubleBooking s.consultas = true)
    (hop : revivesCancelled s op = false) :
    noDoubleBooking ((applyOp s op)).consultas = true := by
  cases op with
  | criarPaciente newId nome cpf telefone email =>
    rw [applyOp, criar_paciente_consultas]; exact hinv
  | atualizarPaciente pid nome cpf telefone email =>
    rw [applyOp, atualizar_paciente_consultas]; exact hinv
  | removerPaciente pid =>
    rw [applyOp, remover_paciente_consultas]; exact hinv
  | criarMedico newId nome crm especialidade horarios =>
    rw [applyOp, criar_medico_consultas]; exact hinv
  | agendarConsulta newId pid mid data hora obs now =>
    rw [applyOp]
    exact agendar_consulta_preserves_ndb s newId pid mid data hora obs now hinv
  | atualizarStatusConsulta cid novo now =>
    rw [applyOp]
    refine atualizar_status_preserves_ndb s cid novo now hinv ?_
    intro c hc hcanc hvalid
    simp only [revivesCancelled, hc] at hop
    simpa [hcanc, hvalid] using hop
  | cancelarConsulta cid now =>
    rw [applyOp, cancelar_consulta]
    exact atualizar_status_preserves_ndb s cid Consulta.STATUS_CANCELADA now hinv
      (fun c hc hcanc hvalid => rfl)

/-- Induction along a no-revive run: the invariant is preserved. -/
theorem runOps_preserves_ndb (ops : List Op) (s : ServiceState)
    (hinv : noDoubleBooking s.consultas = true)
    (h : noReviveRun s ops = true) :
    noDoubleBooking (runOps s ops).consultas = true := by
  induction ops generalizing s with
  | nil => exact hinv
  | cons op ops ih =>
    rw [noReviveRun, Bool.and_eq_true] at h
    rw [runOps]
    exact ih (applyOp s op) (applyOp_preserves_ndb s op hinv (by simpa using h.1)) h.2

/-- C1 (amended): in every state reachable from the empty store by service
operations in which `atualizar_status_consulta` is never used to change a
currently-cancelled consulta back to a non-cancelled status, at most one
non-cancelled consulta exists per (medico_id, data, hora) slot. -/
theorem c1_no_double_booking_guarded (ops : List Op)
    (h : noReviveRun ServiceState.empty ops = true) :
    noDoubleBooking (runOps ServiceState.empty ops).consultas = true :=
  runOps_preserves_ndb ops ServiceState.empty rfl h

/-- Witness for C1: the book → cancel → rebook scenario is a no-revive run
and its final state satisfies the invariant. -/
theorem c1_no_double_booking_guarded_witness :
    noReviveRun ServiceState.empty c1WitnessOps = true ∧
    noDoubleBooking (runOps ServiceState.empty c1WitnessOps).consultas = true :=
  ⟨by decide, c1_no_double_booking_guarded c1WitnessOps (by decide)⟩

/-- Counterexample to C1 as stated: after book → cancel → rebook →
un-cancel (all genuine Booking Service operations from the empty store),
the store holds two `agendada` consultas for (M1, 2025-11-25, 09:00). -/
theorem c1_counterexample :
    noDoubleBooking (runOps ServiceState.empty c1CounterOps).consultas = false ∧
    (runOps ServiceState.empty c1CounterOps).consultas =
      [⟨"C1", "P1", "M1", "2025-11-25", "09:00", "", "agendada", 0, 3⟩,
       ⟨"C2", "P1", "M1", "2025-11-25", "09:00", "", "agendada", 2, 2⟩] :=
  ⟨by decide, by decide⟩

/-! ## C7 — uniqueness of the business keys cpf and crm -/

theorem pairwiseDistinct_iff_nodup (l : List String) :
    pairwiseDistinct l = true ↔ l.Nodup := by
  induction l with
  | nil => simp [pairwiseDistinct]
  | cons x rest ih =>
    rw [pairwiseDistinct, Bool.and_eq_true, ih, List.nodup_cons]
    constructor
    · rintro ⟨h1, h2⟩
      refine ⟨fun hmem => ?_, h2⟩
      have := List.all_eq_true.mp h1 x hmem
      simp at this
    · rintro ⟨h1, h2⟩
      refine ⟨List.all_eq_true.mpr fun y hy => ?_, h2⟩
      simp only [Bool.not_eq_true', beq_eq_false_iff_ne]
      intro he
      exact h1 (he ▸ hy)

theorem mem_updFirstPaciente (pid : String) (novo : Paciente) (l : List Paciente)
    (x : Paciente) (hx : x ∈ (updFirstPaciente pid novo l).2) : x ∈ l ∨ x = novo := by
  induction l with
  | nil => cases hx
  | cons a rest ih =>
    rw [updFirstPaciente] at hx
    by_cases ha : a.id = pid
    · rw [if_pos ha] at hx
      rcases List.mem_cons.mp hx with h | h
      · exact Or.inr h
      · exact Or.inl (List.mem_cons_of_mem a h)
    · rw [if_neg ha] at hx
      rcases List.mem_cons.mp hx with h | h
      · exact Or.inl (h ▸ List.mem_cons_self a rest)
      · rcases ih h with h2 | h2
        · exact Or.inl (List.mem_cons_of_mem a h2)
        · exact Or.inr h2

/-- Replacing the first patient with id `pid` keeps both the id column and
the cpf column duplicate-free, provided the new record keeps the id and its
cpf is not held by any other patient. -/
theorem updFirstPaciente_nodup (pid : String) (novo : Paciente) (l : List Paciente)
    (hid : novo.id = pid)
    (hids : (l.map (fun p => p.id)).Nodup)
    (hcpfs : (l.map (fun p => p.cpf)).Nodup)
    (hfresh : ∀ p ∈ l, p.id ≠ pid → p.cpf ≠ novo.cpf) :
    ((updFirstPaciente pid novo l).2.map (fun p => p.id)).Nodup ∧
    ((updFirstPaciente pid novo l).2.map (fun p => p.cpf)).Nodup := by
  induction l with
  | nil => exact ⟨hids, hcpfs⟩
  | cons a rest ih =>
    rw [List.map_cons, List.nodup_cons] at hids hcpfs
    rw [updFirstPaciente]
    by_cases ha : a.id = pid
    · rw [if_pos ha]
      constructor
      · rw [List.map_cons, List.nodup_cons, hid, ← ha]
        exact ⟨hids.1, hids.2⟩
      · rw [List.map_cons, List.nodup_cons]
        refine ⟨fun hmem => ?_, hcpfs.2⟩
        rcases List.mem_map.mp hmem with ⟨x, hxmem, hxcpf⟩
        have hxid : x.id ≠ pid := by
          intro he
          exact hids.1 (List.mem_map.mpr ⟨x, hxmem, he.trans ha.symm⟩)
        exact hfresh x (List.mem_cons_of_mem a hxmem) hxid hxcpf
    · rw [if_neg ha]
      obtain ⟨ihids, ihcpfs⟩ := ih hids.2 hcpfs.2
        (fun p hp => hfresh p (List.mem_cons_of_mem a hp))
      constructor
      · rw [List.map_cons, List.nodup_cons]
        refine ⟨fun hmem => ?_, ihids⟩
        rcases List.mem_map.mp hmem with ⟨x, hxmem, hxid⟩
        rcases mem_updFirstPaciente pid novo rest x hxmem with h | h
        · exact hids.1 (List.mem_map.mpr ⟨x, h, hxid⟩)
        · exact ha ((hxid.symm.trans (h ▸ hid)))
      · rw [List.map_cons, List.nodup_cons]
        refine ⟨fun hmem => ?_, ihcpfs⟩
        rcases List.mem_map.mp hmem with ⟨x, hxmem, hxcpf⟩
        rcases mem_updFirstPaciente pid novo rest x hxmem with h | h
        · exact hcpfs.1 (List.mem_map.mpr ⟨x, h, hxcpf⟩)
        · exact hfresh a (List.mem_cons_self a rest) ha (h ▸ hxcpf).symm

theorem criar_medico_pacientes (s : ServiceState) (newId nome crm especialidade : String)
    (horarios : List String) :
    ((criar_medico s newId nome crm especialidade horarios).2).pacientes = s.pacientes := by
  rw [criar_medico]
  split <;> rfl

theorem agendar_consulta_pacientes (s : ServiceState)
    (newId pid mid data hora obs : String) (now : Nat) :
    ((agendar_consulta s newId pid mid data hora obs now).2).pacientes = s.pacientes := by
  rw [agendar_consulta]
  cases buscar_paciente s pid
  · rfl
  · cases buscar_medico s mid
    · rfl
    · dsimp only
      split
      · split <;> rfl
      · rfl

theorem atualizar_status_consulta_pacientes (s : ServiceState) (cid novo : String)
    (now : Nat) :
    ((atualizar_status_consulta s cid novo now).2).pacientes = s.pacientes := by
  rw [atualizar_status_consulta]
  cases buscar_consulta s cid
  · rfl
  · dsimp only
    split
    · split <;> rfl
    · rfl

theorem criar_paciente_medicos (s : ServiceState) (newId nome cpf telefone email : String) :
    ((criar_paciente s newId nome cpf telefone email).2).medicos = s.medicos := by
  rw [criar_paciente]
  split <;> rfl

theorem atualizar_paciente_medicos (s : ServiceState)
    (pid nome cpf telefone email : String) :
    ((atualizar_paciente s pid nome cpf telefone email).2).medicos = s.medicos := by
  rw [atualizar_paciente]
  cases buscar_paciente s pid
  · rfl
  · dsimp only
    split <;> rfl

theorem remover_paciente_medicos (s : ServiceState) (pid : String) :
    ((remover_paciente s pid).2).medicos = s.medicos := by
  rw [remover_paciente]
  dsimp only
  split
  · rfl
  · split <;> rfl

theorem agendar_consulta_medicos (s : ServiceState)
    (newId pid mid data hora obs : String) (now : Nat) :
    ((agendar_consulta s newId pid mid data hora obs now).2).medicos = s.medicos := by
  rw [agendar_consulta]
  cases buscar_paciente s pid
  · rfl
  · cases buscar_medico s mid
    · rfl
    · dsimp only
      split
      · split <;> rfl
      · rfl

theorem atualizar_status_consulta_medicos (s : ServiceState) (cid novo : String)
    (now : Nat) :
    ((atualizar_status_consulta s cid novo now).2).medicos = s.medicos := by
  rw [atualizar_status_consulta]
  cases buscar_consulta s cid
  · rfl
  · dsimp only
    split
    · split <;> rfl
    · rfl

/-- `criar_medico` keeps the crm column duplicate-free: it rejects an
existing crm and otherwise appends a fresh one. -/
theorem criar_medico_preserves_crm (s : ServiceState)
    (newId nome crm especialidade : String) (horarios : List String)
    (hcrm : (s.medicos.map (fun m => m.crm)).Nodup) :
    (((criar_medico s newId nome crm especialidade horarios).2).medicos.map
      (fun m => m.crm)).Nodup := by
  rw [criar_medico]
  split
  · exact hcrm
  · rename_i hdup
    rw [Bool.not_eq_true] at hdup
    show ((s.medicos ++ [(⟨newId, nome, crm, especialidade, horarios⟩ : Medico)]).map
      (fun m => m.crm)).Nodup
    rw [List.map_append, List.nodup_append]
    refine ⟨hcrm, List.nodup_singleton _, ?_⟩
    intro x hx
    rcases List.mem_map.mp hx with ⟨m, hm, hmx⟩
    have := List.any_eq_false.mp hdup m hm
    simp only [beq_iff_eq] at this
    simp only [List.map_cons, List.map_nil, List.mem_singleton]
    intro he
    exact this (by rw [hmx, he])

/-- `criar_paciente` under a fresh generated id keeps both patient key
columns duplicate-free. -/
theorem criar_paciente_preserves_uniq (s : ServiceState)
    (newId nome cpf telefone email : String)
    (hids : (s.pacientes.map (fun p => p.id)).Nodup)
    (hcpfs : (s.pacientes.map (fun p => p.cpf)).Nodup)
    (hfresh : s.pacientes.any (fun p => p.id == newId) = false) :
    (((criar_paciente s newId nome cpf telefone email).2).pacientes.map
      (fun p => p.id)).Nodup ∧
    (((criar_paciente s newId nome cpf telefone email).2).pacientes.map
      (fun p => p.cpf)).Nodup := by
  rw [criar_paciente]
  split
  · exact ⟨hids, hcpfs⟩
  · rename_i hdup
    rw [Bool.not_eq_true] at hdup
    constructor
    · show ((s.pacientes ++ [(⟨newId, nome, cpf, telefone, email⟩ : Paciente)]).map
        (fun p => p.id)).Nodup
      rw [List.map_append, List.nodup_append]
      refine ⟨hids, List.nodup_singleton _, ?_⟩
      intro x hx
      rcases List.mem_map.mp hx with ⟨p, hp, hpx⟩
      have := List.any_eq_false.mp hfresh p hp
      simp only [beq_iff_eq] at this
      simp only [List.map_cons, List.map_nil, List.mem_singleton]
      intro he
      exact this (by rw [hpx, he])
    · show ((s.pacientes ++ [(⟨newId, nome, cpf, telefone, email⟩ : Paciente)]).map
        (fun p => p.cpf)).Nodup
      rw [List.map_append, List.nodup_append]
      refine ⟨hcpfs, List.nodup_singleton _, ?_⟩
      intro x hx
      rcases List.mem_map.mp hx with ⟨p, hp, hpx⟩
      have := List.any_eq_false.mp hdup p hp
      simp only [beq_iff_eq] at this
      simp only [List.map_cons, List.map_nil, List.mem_singleton]
      intro he
      exact this (by rw [hpx, he])

/-- `atualizar_paciente` under the no-hazard guard keeps both patient key
columns duplicate-free. -/
theorem atualizar_paciente_preserves_uniq (s : ServiceState)
    (pid nome cpf telefone email : String)
    (hids : (s.pacientes.map (fun p => p.id)).Nodup)
    (hcpfs : (s.pacientes.map (fun p => p.cpf)).Nodup)
    (hguard : s.pacientes.any (fun p => !(p.id == pid) && p.cpf == cpf) = false) :
    (((atualizar_paciente s pid nome cpf telefone email).2).pacientes.map
      (fun p => p.id)).Nodup ∧
    (((atualizar_paciente s pid nome cpf telefone email).2).pacientes.map
      (fun p => p.cpf)).Nodup := by
  cases hb : buscar_paciente s pid with
  | none =>
    rw [atualizar_paciente, hb]
    exact ⟨hids, hcpfs⟩
  | some paciente =>
    have hpid : paciente.id = pid := by
      have := List.find?_some hb
      simpa using this
    rw [atualizar_paciente, hb]
    dsimp only
    have hupd := updFirstPaciente_nodup pid
      { paciente with nome := nome, cpf := cpf, telefone := telefone, email := email }
      s.pacientes hpid hids hcpfs ?_
    · split
      · exact hupd
      · exact ⟨hids, hcpfs⟩
    · intro p hp hpne he
      apply List.any_eq_false.mp hguard p hp
      simp only [Bool.and_eq_true, Bool.not_eq_true', beq_eq_false_iff_ne, beq_iff_eq]
      exact ⟨hpne, by simpa using he⟩

/-- Every service operation preserves crm uniqueness: only `criar_medico`
touches the medicos collection, and it checks for a duplicate crm. -/
theorem applyOp_preserves_crm (s : ServiceState) (op : Op)
    (hcrm : (s.medicos.map (fun m => m.crm)).Nodup) :
    ((applyOp s op).medicos.map (fun m => m.crm)).Nodup := by
  cases op with
  | criarPaciente a b c d e =>
    rw [applyOp, criar_paciente_medicos]; exact hcrm
  | atualizarPaciente a b c d e =>
    rw [applyOp, atualizar_paciente_medicos]; exact hcrm
  | removerPaciente a =>
    rw [applyOp, remover_paciente_medicos]; exact hcrm
  | criarMedico a b c d e =>
    rw [applyOp]; exact criar_medico_preserves_crm s a b c d e hcrm
  | agendarConsulta a b c d e f g =>
    rw [applyOp, agendar_consulta_medicos]; exact hcrm
  | atualizarStatusConsulta a b c =>
    rw [applyOp, atualizar_status_consulta_medicos]; exact hcrm
  | cancelarConsulta a b =>
    rw [applyOp, cancelar_consulta, atualizar_status_consulta_medicos]; exact hcrm

/-- Every hazard-free service operation preserves uniqueness of patient ids
and CPFs. -/
theorem applyOp_preserves_uniq (s : ServiceState) (op : Op)
    (hids : (s.pacientes.map (fun p => p.id)).Nodup)
    (hcpfs : (s.pacientes.map (fun p => p.cpf)).Nodup)
    (hop : uniquenessHazard s op = false) :
    ((applyOp s op).pacientes.map (fun p => p.id)).Nodup ∧
    ((applyOp s op).pacientes.map (fun p => p.cpf)).Nodup := by
  cases op with
  | criarPaciente newId nome cpf telefone email =>
    rw [applyOp]
    exact criar_paciente_preserves_uniq s newId nome cpf telefone email hids hcpfs
      (by simpa [uniquenessHazard] using hop)
  | atualizarPaciente pid nome cpf telefone email =>
    rw [applyOp]
    exact atualizar_paciente_preserves_uniq s pid nome cpf telefone email hids hcpfs
      (by simpa [uniquenessHazard] using hop)
  | removerPaciente pid =>
    rw [applyOp, remover_paciente]
    dsimp only
    split
    · exact ⟨hids, hcpfs⟩
    · split
      · exact ⟨List.Nodup.sublist (List.Sublist.map _ (List.filter_sublist _)) hids,
          List.Nodup.sublist (List.Sublist.map _ (List.filter_sublist _)) hcpfs⟩
      · exact ⟨hids, hcpfs⟩
  | criarMedico a b c d e =>
    rw [applyOp, criar_medico_pacientes]; exact ⟨hids, hcpfs⟩
  | agendarConsulta a b c d e f g =>
    rw [applyOp, agendar_consulta_pacientes]; exact ⟨hids, hcpfs⟩
  | atualizarStatusConsulta a b c =>
    rw [applyOp, atualizar_status_consulta_pacientes]; exact ⟨hids, hcpfs⟩
  | cancelarConsulta a b =>
    rw [applyOp, cancelar_consulta, atualizar_status_consulta_pacientes]
    exact ⟨hids, hcpfs⟩

theorem runOps_preserves_crm (ops : List Op) (s : ServiceState)
    (hcrm : (s.medicos.map (fun m => m.crm)).Nodup) :
    ((runOps s ops).medicos.map (fun m => m.crm)).Nodup := by
  induction ops generalizing s with
  | nil => exact hcrm
  | cons op ops ih =>
    rw [runOps]
    exact ih _ (applyOp_preserves_crm s op hcrm)

theorem runOps_preserves_uniq (ops : List Op) (s : ServiceState)
    (hids : (s.pacientes.map (fun p => p.id)).Nodup)
    (hcpfs : (s.pacientes.map (fun p => p.cpf)).Nodup)
    (h : hazardFreeRun s ops = true) :
    ((runOps s ops).pacientes.map (fun p => p.id)).Nodup ∧
    ((runOps s ops).pacientes.map (fun p => p.cpf)).Nodup := by
  induction ops generalizing s with
  | nil => exact ⟨hids, hcpfs⟩
  | cons op ops ih =>
    rw [hazardFreeRun, Bool.and_eq_true] at h
    rw [runOps]
    obtain ⟨h1, h2⟩ := applyOp_preserves_uniq s op hids hcpfs (by simpa using h.1)
    exact ih _ h1 h2 h.2

/-- C7 (amended): in every state reachable from the empty store, the crm
values of the medicos collection are pairwise distinct; and so are the cpf
values of the patients collection, provided the run is free of uniqueness
hazards (generated patient ids are fresh, and `atualizar_paciente` never
writes a CPF already held by a different patient). -/
theorem c7_unique_business_keys (ops : List Op) :
    pairwiseDistinct ((runOps ServiceState.empty ops).medicos.map (fun m => m.crm))
      = true ∧
    (hazardFreeRun ServiceState.empty ops = true →
      pairwiseDistinct ((runOps ServiceState.empty ops).pacientes.map (fun p => p.cpf))
        = true) := by
  constructor
  · rw [pairwiseDistinct_iff_nodup]
    exact runOps_preserves_crm ops ServiceState.empty (by simp [ServiceState.empty])
  · intro h
    rw [pairwiseDistinct_iff_nodup]
    exact (runOps_preserves_uniq ops ServiceState.empty (by simp [ServiceState.empty])
      (by simp [ServiceState.empty]) h).2

/-- Witness for C7: a hazard-free run creating two patients, updating one
CPF harmlessly and creating two medicos keeps both key columns distinct. -/
theorem c7_unique_business_keys_witness :
    pairwiseDistinct ((runOps ServiceState.empty c7WitnessOps).medicos.map
      (fun m => m.crm)) = true ∧
    pairwiseDistinct ((runOps ServiceState.empty c7WitnessOps).pacientes.map
      (fun p => p.cpf)) = true :=
  ⟨(c7_unique_business_keys c7WitnessOps).1,
   (c7_unique_business_keys c7WitnessOps).2 (by decide)⟩

/-- Counterexample to C7 as stated: `atualizar_paciente` writes patient
P1's CPF onto P2 without any uniqueness check, leaving two patients with
CPF "111". -/
theorem c7_counterexample :
    pairwiseDistinct ((runOps ServiceState.empty c7CounterOps).pacientes.map
      (fun p => p.cpf)) = false ∧
    (runOps ServiceState.empty c7CounterOps).pacientes =
      [⟨"P1", "Ana", "111", "t", "e"⟩, ⟨"P2", "Bia", "111", "t", "e"⟩] :=
  ⟨by decide, by decide⟩

/-! ## C4 — LRU capacity bound and eviction order

The ghost `touch` map of `runCacheG` records, for each key, the index of
the last operation that touched it (a `set`, or a `get` hit). The invariant
below says the ordered dict is sorted by last touch, so its head is always
the least-recently-used entry — which is exactly what `_evict_oldest`
removes. -/

theorem touchD_update_self (touch : List (String × Nat)) (k : String) (i : Nat) :
    touchD (eraseA touch k ++ [(k, i)]) k = i := by
  rw [touchD, lookupA_update, if_pos rfl]
  rfl

theorem touchD_update_ne (touch : List (String × Nat)) (k x : String) (i : Nat)
    (h : x ≠ k) : touchD (eraseA touch k ++ [(k, i)]) x = touchD touch x := by
  rw [touchD, lookupA_update, if_neg h, touchD]

theorem keys_distinct_of_touch_sorted {α : Type} (cache : List (String × α))
    (touch : List (String × Nat))
    (hsort : cache.Pairwise (fun p q => touchD touch p.1 < touchD touch q.1)) :
    cache.Pairwise (fun p q => p.1 ≠ q.1) :=
  hsort.imp (fun hlt heq => absurd (heq ▸ hlt) (lt_irrefl _))

theorem length_eraseA_of_isSome {β : Type} (l : List (String × β)) (k : String)
    (hdist : l.Pairwise (fun p q => p.1 ≠ q.1))
    (hmem : (lookupA l k).isSome = true) :
    (eraseA l k).length + 1 = l.length := by
  induction l with
  | nil => simp [lookupA] at hmem
  | cons p rest ih =>
    rw [List.pairwise_cons] at hdist
    by_cases hp : p.1 = k
    · rw [eraseA_cons, if_pos hp,
        eraseA_of_forall_ne rest k (fun q hq he => hdist.1 q hq (hp.trans he.symm))]
      simp
    · rw [lookupA_cons, if_neg hp] at hmem
      rw [eraseA_cons, if_neg hp]
      simp only [List.length_cons]
      rw [← ih hdist.2 hmem]

/-- Erasing `k` (or keeping a key-distinct sublist without `k`) and pushing
`(k, v)` at the most-recently-used end preserves the touch bookkeeping and
the sorted-by-touch invariant. -/
theorem invariant_push {α : Type} (cache cache2 : List (String × α))
    (touch : List (String × Nat)) (i : Nat) (k : String) (v : α)
    (hsub : cache2.Sublist cache)
    (hnok : ∀ p ∈ cache2, p.1 ≠ k)
    (htch : ∀ p ∈ cache, ∃ t, lookupA touch p.1 = some t ∧ t < i)
    (hsort : cache.Pairwise (fun p q => touchD touch p.1 < touchD touch q.1)) :
    (∀ p ∈ cache2 ++ [(k, v)], ∃ t,
      lookupA (eraseA touch k ++ [(k, i)]) p.1 = some t ∧ t < i + 1) ∧
    (cache2 ++ [(k, v)]).Pairwise
      (fun p q => touchD (eraseA touch k ++ [(k, i)]) p.1 <
        touchD (eraseA touch k ++ [(k, i)]) q.1) := by
  constructor
  · intro p hp
    rcases List.mem_append.mp hp with h | h
    · obtain ⟨t, ht, hti⟩ := htch p (hsub.mem h)
      refine ⟨t, ?_, Nat.lt_succ_of_lt hti⟩
      rw [lookupA_update, if_neg (hnok p h)]
      exact ht
    · rw [List.mem_singleton.mp h]
      exact ⟨i, by rw [lookupA_update, if_pos rfl], Nat.lt_succ_self i⟩
  · rw [List.pairwise_append]
    refine ⟨?_, List.pairwise_singleton _ _, ?_⟩
    · refine List.Pairwise.imp_of_mem ?_ (hsort.sublist hsub)
      intro p q hp hq hlt
      rw [touchD_update_ne touch k p.1 i (hnok p hp),
        touchD_update_ne touch k q.1 i (hnok q hq)]
      exact hlt
    · intro p hp q hq
      rw [List.mem_singleton.mp hq]
      obtain ⟨t, ht, hti⟩ := htch p (hsub.mem hp)
      rw [touchD_update_ne touch k p.1 i (hnok p hp), touchD_update_self, touchD, ht]
      exact hti

/-- One `set`/`get` step preserves the cache invariant: the configured
capacity, the capacity bound, the touch bookkeeping, and sortedness of the
ordered dict by last touch. -/
theorem stepCacheG_invariant {α : Type} (op : CacheOp α) (s : CacheState α)
    (touch : List (String × Nat)) (i : Nat)
    (hN : 1 ≤ s.max_size)
    (hlen : s.cache.length ≤ s.max_size)
    (htch : ∀ p ∈ s.cache, ∃ t, lookupA touch p.1 = some t ∧ t < i)
    (hsort : s.cache.Pairwise (fun p q => touchD touch p.1 < touchD touch q.1)) :
    (stepCacheG s touch i op).1.max_size = s.max_size ∧
    (stepCacheG s touch i op).1.cache.length ≤ s.max_size ∧
    (∀ p ∈ (stepCacheG s touch i op).1.cache, ∃ t,
      lookupA (stepCacheG s touch i op).2 p.1 = some t ∧ t < i + 1) ∧
    (stepCacheG s touch i op).1.cache.Pairwise
      (fun p q => touchD (stepCacheG s touch i op).2 p.1 <
        touchD (stepCacheG s touch i op).2 q.1) := by
  have hkeys := keys_distinct_of_touch_sorted s.cache touch hsort
  cases op with
  | get k now =>
    simp only [stepCacheG]
    cases hc : lookupA s.cache k with
    | none =>
      simp only [CacheState.get, hc, Option.isSome_none, Bool.false_eq_true, if_false]
      refine ⟨by simp, hlen, ?_, hsort⟩
      intro p hp
      obtain ⟨t, ht, hti⟩ := htch p hp
      exact ⟨t, ht, Nat.lt_succ_of_lt hti⟩
    | some v =>
      by_cases he : s.isExpired now k = true
      · simp only [CacheState.get, hc, he, if_true, CacheState.removeKey,
          Option.isSome_none, Bool.false_eq_true, if_false]
        refine ⟨by simp, le_trans ((eraseA_sublist s.cache k).length_le) hlen, ?_,
          hsort.sublist (eraseA_sublist _ _)⟩
        intro p hp
        obtain ⟨t, ht, hti⟩ := htch p ((mem_eraseA _ _ _).mp hp).1
        exact ⟨t, ht, Nat.lt_succ_of_lt hti⟩
      · rw [Bool.not_eq_true] at he
        simp only [CacheState.get, hc, he, Bool.false_eq_true, if_false,
          Option.isSome_some, if_true]
        obtain ⟨hpush1, hpush2⟩ := invariant_push s.cache (eraseA s.cache k) touch i k v
          (eraseA_sublist _ _) (fun p hp => ((mem_eraseA _ _ _).mp hp).2) htch hsort
        refine ⟨by simp, ?_, hpush1, hpush2⟩
        rw [List.length_append, List.length_singleton,
          length_eraseA_of_isSome s.cache k hkeys (by rw [hc]; rfl)]
        exact hlen
  | set k v now =>
    simp only [stepCacheG]
    by_cases hc : (lookupA s.cache k).isSome = true
    · simp only [CacheState.set, hc, if_true]
      obtain ⟨hpush1, hpush2⟩ := invariant_push s.cache (eraseA s.cache k) touch i k v
        (eraseA_sublist _ _) (fun p hp => ((mem_eraseA _ _ _).mp hp).2) htch hsort
      refine ⟨by simp, ?_, hpush1, hpush2⟩
      rw [List.length_append, List.length_singleton,
        length_eraseA_of_isSome s.cache k hkeys hc]
      exact hlen
    · rw [Bool.not_eq_true] at hc
      have hcn : lookupA s.cache k = none := by
        cases hcc : lookupA s.cache k
        · rfl
        · rw [hcc] at hc; simp at hc
      have hnok : ∀ p ∈ s.cache, p.1 ≠ k := (lookupA_eq_none_iff s.cache k).mp hcn
      simp only [CacheState.set, hc, Bool.false_eq_true, if_false]
      by_cases hfull : s.max_size ≤ s.cache.length
      · rw [if_pos hfull]
        cases hcache : s.cache with
        | nil =>
          rw [hcache] at hfull
          simp only [List.length_nil] at hfull
          omega
        | cons p rest =>
          rw [hcache] at hkeys
          rw [List.pairwise_cons] at hkeys
          have herase : eraseA (p :: rest) p.1 = rest :=
            eraseA_cons_self p rest (fun q hq => (hkeys.1 q hq).symm)
          simp only [CacheState.evictOldest, hcache, CacheState.removeKey, herase]
          have hsubrest : rest.Sublist s.cache := by
            rw [hcache]
            exact List.sublist_cons_self p rest
          obtain ⟨hpush1, hpush2⟩ := invariant_push s.cache rest touch i k v
            hsubrest (fun q hq => hnok q (hsubrest.mem hq)) htch hsort
          refine ⟨by simp, ?_, hpush1, hpush2⟩
          rw [List.length_append, List.length_singleton]
          have hrl : rest.length + 1 = s.cache.length := by rw [hcache]; rfl
          omega
      · rw [if_neg hfull]
        obtain ⟨hpush1, hpush2⟩ := invariant_push s.cache s.cache touch i k v
          (List.Sublist.refl _) hnok htch hsort
        refine ⟨by simp, ?_, hpush1, hpush2⟩
        rw [List.length_append, List.length_singleton]
        omega

/-- The cache invariant holds along any run of `set`/`get` operations. -/
theorem runCacheG_invariant {α : Type} (ops : List (CacheOp α)) (s : CacheState α)
    (touch : List (String × Nat)) (i : Nat)
    (hN : 1 ≤ s.max_size)
    (hlen : s.cache.length ≤ s.max_size)
    (htch : ∀ p ∈ s.cache, ∃ t, lookupA touch p.1 = some t ∧ t < i)
    (hsort : s.cache.Pairwise (fun p q => touchD touch p.1 < touchD touch q.1)) :
    (runCacheG s touch i ops).1.max_size = s.max_size ∧
    (runCacheG s touch i ops).1.cache.length ≤ s.max_size ∧
    (runCacheG s touch i ops).1.cache.Pairwise
      (fun p q => touchD (runCacheG s touch i ops).2 p.1 <
        touchD (runCacheG s touch i ops).2 q.1) := by
  induction ops generalizing s touch i with
  | nil => exact ⟨rfl, hlen, hsort⟩
  | cons op ops ih =>
    obtain ⟨hms, hlen2, htch2, hsort2⟩ := stepCacheG_invariant op s touch i hN hlen htch hsort
    rw [runCacheG]
    obtain ⟨a, b, d⟩ := ih (stepCacheG s touch i op).1 (stepCacheG s touch i op).2 (i + 1)
      (by rw [hms]; exact hN) (by rw [hms]; exact hlen2) htch2 hsort2
    exact ⟨a.trans hms, by rw [← hms]; exact b, d⟩

/-- C4: starting from an empty cache of capacity `N ≥ 1`, any sequence of
`set`/`get` operations leaves at most `N` entries; and whenever a `set` of
an absent key hits a full cache, exactly the first entry of the ordered
dict is evicted, and that entry is the least-recently-touched one (by `set`
or `get` hit), independent of TTL staleness. -/
theorem c4_lru_capacity_and_eviction (α : Type) (N T : Nat) (hN : 1 ≤ N)
    (ops : List (CacheOp α)) :
    (runCacheG (CacheState.init α N T) [] 0 ops).1.cache.length ≤ N ∧
    (∀ (key : String) (v : α) (now : Nat),
      lookupA (runCacheG (CacheState.init α N T) [] 0 ops).1.cache key = none →
      N ≤ (runCacheG (CacheState.init α N T) [] 0 ops).1.cache.length →
      ((runCacheG (CacheState.init α N T) [] 0 ops).1.set now key v).cache =
        (runCacheG (CacheState.init α N T) [] 0 ops).1.cache.tail ++ [(key, v)] ∧
      (∀ hd ∈ (runCacheG (CacheState.init α N T) [] 0 ops).1.cache.head?,
       ∀ q ∈ (runCacheG (CacheState.init α N T) [] 0 ops).1.cache,
        touchD (runCacheG (CacheState.init α N T) [] 0 ops).2 hd.1 ≤
        touchD (runCacheG (CacheState.init α N T) [] 0 ops).2 q.1)) := by
  obtain ⟨hms, hlen, hsort⟩ := runCacheG_invariant ops (CacheState.init α N T) [] 0
    hN (by simp [CacheState.init]) (by intro p hp; simp [CacheState.init] at hp)
    (by simp [CacheState.init])
  refine ⟨hlen, ?_⟩
  intro key v now hnone hfull
  have hkeys := keys_distinct_of_touch_sorted _ _ hsort
  have hceq : (lookupA (runCacheG (CacheState.init α N T) [] 0 ops).1.cache key).isSome
      = false := by rw [hnone]; rfl
  have hmax : (runCacheG (CacheState.init α N T) [] 0 ops).1.max_size = N := hms
  constructor
  · cases hcache : (runCacheG (CacheState.init α N T) [] 0 ops).1.cache with
    | nil =>
      rw [hcache] at hfull
      simp only [List.length_nil] at hfull
      omega
    | cons p rest =>
      rw [hcache] at hkeys
      rw [List.pairwise_cons] at hkeys
      have herase : eraseA (p :: rest) p.1 = rest :=
        eraseA_cons_self p rest (fun q hq => (hkeys.1 q hq).symm)
      simp only [CacheState.set, hceq, Bool.false_eq_true, if_false]
      rw [if_pos (by rw [hmax, hcache]; rw [hcache] at hfull; exact hfull)]
      simp only [CacheState.evictOldest, hcache, CacheState.removeKey, herase,
        List.tail_cons]
  · intro hd hhd q hq
    cases hcache : (runCacheG (CacheState.init α N T) [] 0 ops).1.cache with
    | nil =>
      rw [hcache] at hhd
      simp at hhd
    | cons p rest =>
      rw [hcache] at hhd hq
      simp only [List.head?_cons, Option.mem_def, Option.some.injEq] at hhd
      rw [hcache] at hsort
      rw [List.pairwise_cons] at hsort
      rcases List.mem_cons.mp hq with h | h
      · rw [← hhd, h]
      · rw [← hhd]
        exact le_of_lt (hsort.1 q h)

/-- Witness for C4: on a capacity-2 cache holding "a" (just hit) and "b",
setting the fresh key "c" evicts exactly "b" — the least-recently-touched
entry. -/
theorem c4_lru_capacity_and_eviction_witness :
    (runCacheG (CacheState.init Nat 2 10) [] 0 c4WitnessOps).1.cache.length ≤ 2 ∧
    (((runCacheG (CacheState.init Nat 2 10) [] 0 c4WitnessOps).1.set 3 "c" 7).cache =
      (runCacheG (CacheState.init Nat 2 10) [] 0 c4WitnessOps).1.cache.tail ++ [("c", 7)] ∧
     (∀ hd ∈ (runCacheG (CacheState.init Nat 2 10) [] 0 c4WitnessOps).1.cache.head?,
      ∀ q ∈ (runCacheG (CacheState.init Nat 2 10) [] 0 c4WitnessOps).1.cache,
        touchD (runCacheG (CacheState.init Nat 2 10) [] 0 c4WitnessOps).2 hd.1 ≤
        touchD (runCacheG (CacheState.init Nat 2 10) [] 0 c4WitnessOps).2 q.1)) :=
  ⟨(c4_lru_capacity_and_eviction Nat 2 10 (by decide) c4WitnessOps).1,
   (c4_lru_capacity_and_eviction Nat 2 10 (by decide) c4WitnessOps).2 "c" 7 3
     (by decide) (by decide)⟩

end Sistema
